import Mathlib

/-!
Verification of the festive-ui particle engine core.

This file gives a shallow embedding, in Lean 4, of the particle engine of the
festive-ui library (src/engine/ParticleEngine.ts, src/engine/ParticlePool.ts,
src/engine/PerformanceMonitor.ts, src/engine/types.ts) and proves properties of
that embedding.

Modelling conventions:
- JavaScript numbers are modelled by the rationals (the source performs only
  field arithmetic: +, -, *, /, min, floor, round; no bit tricks, and no
  quantity here comes near the limits of double precision).  Counters that the
  source only ever holds at integer values are modelled by Nat or Int.
- A JS Map is modelled by an association list in insertion order, which is the
  order Map iteration follows; Map.set replaces in place or appends, Map.delete
  removes the entry.  A JS Set of particle ids is a duplicate-free list in
  insertion order.
- Mutation is modelled by explicit state passing; a method that mutates `this`
  becomes a function from the state to the new state.
- Wall-clock reads (performance.now(), Date.now()) are nondeterministic inputs
  and become explicit arguments.
- Particle ids in the source are the strings "p-0", "p-1", ... produced from a
  monotone counter; they are modelled by the counter value itself (a Nat),
  which renaming is faithful because n ↦ "p-" ++ toString n is injective.
- Effect session ids embed Date.now() and Math.random(); they are modelled as
  caller-supplied strings, and reachability carries the freshness side
  condition that the generated id does not collide with a live session id.
- emit dispatches an event synchronously to listeners (exceptions caught); the
  model records the emission in an event log.
- render hooks and canvas drawing are pure draw calls that do not touch engine
  state and are not modelled.
-/

namespace FestiveUI

/-! ## Data model (src/engine/types.ts) -/

/-- Particle lifecycle phase (types.ts, ParticlePhase). -/
inductive ParticlePhase where
  | spawning
  | active
  | dying
deriving DecidableEq

/-- Particle color: a string token or an RGB triple (types.ts, Particle.color). -/
inductive PColor where
  | str (s : String)
  | rgb (r g b : ℚ)
deriving DecidableEq

/-- Standardized particle model (types.ts, interface Particle).  The meta bag
is an open key/value record owned by the effect; it is modelled as an
association list of numeric values, enough to express "empty meta". -/
structure Particle where
  x : ℚ
  y : ℚ
  vx : ℚ
  vy : ℚ
  ax : ℚ
  ay : ℚ
  size : ℚ
  opacity : ℚ
  color : PColor
  rotation : ℚ
  rotationSpeed : ℚ
  life : ℚ
  maxLife : ℚ
  phase : ParticlePhase
  meta : List (String × ℚ)
deriving DecidableEq

/-! ## ParticlePool (src/engine/ParticlePool.ts) -/

/-- Object pool state: free list (head = top of the push/pop stack), configured
maximum size, and the active counter.  activeCount is an Int because the source
computes `Math.max(0, this.activeCount - 1)`; that it never becomes negative is
proved, not assumed. -/
structure ParticlePool where
  pool : List Particle
  maxSize : Nat
  activeCount : Int
deriving DecidableEq

/-- createParticle: a new particle with default values (ParticlePool.ts). -/
def createParticle : Particle :=
  { x := 0
    y := 0
    vx := 0
    vy := 0
    ax := 0
    ay := 0
    size := 0
    opacity := 1
    color := PColor.str "#FFFFFF"
    rotation := 0
    rotationSpeed := 0
    life := 0
    maxLife := 100
    phase := ParticlePhase.active
    meta := [] }

/-- resetParticle: reset every field to its default (ParticlePool.ts). -/
def resetParticle (p : Particle) : Particle :=
  { p with
    x := 0
    y := 0
    vx := 0
    vy := 0
    ax := 0
    ay := 0
    size := 0
    opacity := 1
    color := PColor.str "#FFFFFF"
    rotation := 0
    rotationSpeed := 0
    life := 0
    maxLife := 100
    phase := ParticlePhase.active
    meta := [] }

/-- prewarm(count): push count fresh default particles (ParticlePool.ts). -/
def ParticlePool.prewarm (p : ParticlePool) (count : Nat) : ParticlePool :=
  { p with pool := List.replicate count createParticle ++ p.pool }

/-- new ParticlePool(maxSize): empty free list prewarmed with
min(100, maxSize) particles, active counter zero (ParticlePool.ts ctor). -/
def ParticlePool.new (maxSize : Nat) : ParticlePool :=
  ParticlePool.prewarm { pool := [], maxSize := maxSize, activeCount := 0 } (min 100 maxSize)

/-- acquire(): increment activeCount, then pop-and-reset from the free list if
non-empty, else create a fresh particle.  Always succeeds (ParticlePool.ts). -/
def ParticlePool.acquire (p : ParticlePool) : Particle × ParticlePool :=
  let p1 := { p with activeCount := p.activeCount + 1 }
  match p1.pool with
  | particle :: rest => (resetParticle particle, { p1 with pool := rest })
  | [] => (createParticle, p1)

/-- release(particle): activeCount := max(0, activeCount - 1); if the free list
is below maxSize, reset the record and push it back, else drop it
(ParticlePool.ts). -/
def ParticlePool.release (p : ParticlePool) (particle : Particle) : ParticlePool :=
  let p1 := { p with activeCount := max 0 (p.activeCount - 1) }
  if p1.pool.length < p1.maxSize then
    { p1 with pool := resetParticle particle :: p1.pool }
  else
    p1

/-- clear(): drop the free list and zero the counter (ParticlePool.ts). -/
def ParticlePool.clear (p : ParticlePool) : ParticlePool :=
  { p with pool := [], activeCount := 0 }

/-- One call on the pool, for quantifying over call sequences (claim C6). -/
inductive PoolOp where
  | prewarm (count : Nat)
  | acquire
  | release (particle : Particle)
  | clear
deriving DecidableEq

/-- Apply one pool call (the particle returned by acquire is dropped here;
claim C6 speaks about it separately). -/
def applyPoolOp (p : ParticlePool) : PoolOp → ParticlePool
  | PoolOp.prewarm n => p.prewarm n
  | PoolOp.acquire => (p.acquire).2
  | PoolOp.release particle => p.release particle
  | PoolOp.clear => p.clear

/-- Run a sequence of pool calls from a given pool state. -/
def runPool (p : ParticlePool) (ops : List PoolOp) : ParticlePool :=
  ops.foldl applyPoolOp p

/-! ## Performance budget (src/engine/types.ts, PERFORMANCE_BUDGET) -/

structure PerformanceBudget where
  TARGET_FRAME_TIME : ℚ
  MAX_FRAME_TIME : ℚ
  MAX_PARTICLES_GLOBAL : Nat
  MAX_MEMORY_PER_EFFECT : Nat
  MAX_DELTA_CLAMP : ℚ

/-- Performance budget targets (types.ts). -/
def PERFORMANCE_BUDGET : PerformanceBudget :=
  { TARGET_FRAME_TIME := 8
    MAX_FRAME_TIME := 16
    MAX_PARTICLES_GLOBAL := 100
    MAX_MEMORY_PER_EFFECT := 5 * 1024 * 1024
    MAX_DELTA_CLAMP := 32 }

/-! ## PerformanceMonitor (src/engine/PerformanceMonitor.ts) -/

/-- Metrics snapshot (types.ts, PerformanceMetrics).  fps is an Int because the
source applies Math.round. -/
structure PerformanceMetrics where
  particleCount : Nat
  frameTime : ℚ
  fps : ℤ
  droppedFrames : Nat
  memoryUsage : Nat
deriving DecidableEq

/-- Monitor state.  The source also assigns a lastFrameTime field in the
constructor but never reads it; it is omitted.  The listener set is external
code (notified with the snapshot, exceptions caught) and is not part of the
state the claims are about. -/
structure PerformanceMonitor where
  frameTimes : List ℚ
  frameCount : Nat
  droppedFrames : Nat
deriving DecidableEq

/-- maxSamples: track the last 60 frames (PerformanceMonitor.ts). -/
def maxSamples : Nat := 60

/-- A fresh monitor (PerformanceMonitor.ts ctor). -/
def PerformanceMonitor.new : PerformanceMonitor :=
  { frameTimes := [], frameCount := 0, droppedFrames := 0 }

/-- getAverageFrameTime(): 0 when no samples, else the mean of the window. -/
def PerformanceMonitor.getAverageFrameTime (m : PerformanceMonitor) : ℚ :=
  if m.frameTimes = [] then 0 else m.frameTimes.sum / m.frameTimes.length

/-- estimateMemoryUsage: 200 bytes per particle (PerformanceMonitor.ts). -/
def estimateMemoryUsage (particleCount : Nat) : Nat :=
  particleCount * 200

/-- getMetrics(particleCount, currentFrameTime?): fps = 1000/avg when avg > 0,
else 60; frameTime is the current frame time if supplied, else the average. -/
def PerformanceMonitor.getMetrics (m : PerformanceMonitor) (particleCount : Nat)
    (currentFrameTime : Option ℚ) : PerformanceMetrics :=
  let avgFrameTime := m.getAverageFrameTime
  let fps : ℚ := if 0 < avgFrameTime then 1000 / avgFrameTime else 60
  { particleCount := particleCount
    frameTime := currentFrameTime.getD avgFrameTime
    fps := round fps
    droppedFrames := m.droppedFrames
    memoryUsage := estimateMemoryUsage particleCount }

/-- endFrame(startTime, particleCount): the source computes
frameTime = performance.now() - startTime; the two clock reads are modelled by
passing that elapsed time directly.  Pushes the sample, evicts the oldest when
over maxSamples, counts a dropped frame when the sample exceeds
MAX_FRAME_TIME, and returns the updated monitor with the metrics snapshot
(which the source also hands to its listeners). -/
def PerformanceMonitor.endFrame (m : PerformanceMonitor) (frameTime : ℚ)
    (particleCount : Nat) : PerformanceMonitor × PerformanceMetrics :=
  let frameTimes := m.frameTimes ++ [frameTime]
  let frameTimes := if maxSamples < frameTimes.length then frameTimes.tail else frameTimes
  let dropped :=
    if PERFORMANCE_BUDGET.MAX_FRAME_TIME < frameTime then m.droppedFrames + 1
    else m.droppedFrames
  let m1 : PerformanceMonitor :=
    { frameTimes := frameTimes, frameCount := m.frameCount + 1, droppedFrames := dropped }
  (m1, m1.getMetrics particleCount (some frameTime))

/-- isDegraded(): rolling average above the 12 ms soft threshold. -/
def PerformanceMonitor.isDegraded (m : PerformanceMonitor) : Bool :=
  decide (12 < m.getAverageFrameTime)

/-- isCritical(): rolling average above MAX_FRAME_TIME (16 ms). -/
def PerformanceMonitor.isCritical (m : PerformanceMonitor) : Bool :=
  decide (PERFORMANCE_BUDGET.MAX_FRAME_TIME < m.getAverageFrameTime)

/-! ## init / teardown surface state (ParticleEngine.init, lines 74-108)

The init path touches DOM resources; the model keeps the four booleans the
claims are about: whether this.canvas has been assigned, whether a 2D context
was obtained, whether the canvas has been appended to the container, and
whether the tick loop has been started. -/

structure EngineInit where
  canvasSet : Bool
  ctxSet : Bool
  attached : Bool
  loopRunning : Bool
deriving DecidableEq

/-- What an init call did: initialized normally, threw because the 2D context
could not be obtained, or warned "already initialized" and no-oped. -/
inductive InitOutcome where
  | ok
  | threw
  | alreadyWarned
deriving DecidableEq

/-- Engine before any init call. -/
def engineUninit : EngineInit :=
  { canvasSet := false, ctxSet := false, attached := false, loopRunning := false }

/-- init(container): if this.canvas is set, warn and return.  Otherwise assign
this.canvas := document.createElement('canvas') (line 80), then request the 2D
context (line 95); if that fails, throw (line 101) — note the throw happens
AFTER this.canvas was assigned, and the fields assigned before a JS throw
persist.  On success, append the canvas and start the render loop
(lines 105-107).  ctxAvailable models whether getContext returns a context. -/
def ParticleEngine.init (s : EngineInit) (ctxAvailable : Bool) : EngineInit × InitOutcome :=
  if s.canvasSet then
    (s, InitOutcome.alreadyWarned)
  else
    let s1 := { s with canvasSet := true }
    if ctxAvailable = false then
      ({ s1 with ctxSet := false }, InitOutcome.threw)
    else
      ({ s1 with ctxSet := true, attached := true, loopRunning := true }, InitOutcome.ok)

/-! ## Engine data model (src/engine/ParticleEngine.ts, src/engine/types.ts) -/

/-- Intensity level (types.ts). -/
inductive IntensityLevel where
  | off
  | low
  | medium
  | high
deriving DecidableEq

/-- Intensity mapping configuration (types.ts, IntensityConfig). -/
structure IntensityConfig where
  countMultiplier : ℚ
  speedMultiplier : ℚ
  spawnRate : ℚ
  opacityRange : ℚ × ℚ
deriving DecidableEq

/-- Intensity mappings (types.ts, INTENSITY_MAP). -/
def INTENSITY_MAP : IntensityLevel → IntensityConfig
  | IntensityLevel.off =>
      { countMultiplier := 0, speedMultiplier := 0, spawnRate := 0, opacityRange := (0, 0) }
  | IntensityLevel.low =>
      { countMultiplier := 0.4, speedMultiplier := 0.75, spawnRate := 1.5,
        opacityRange := (0.4, 0.7) }
  | IntensityLevel.medium =>
      { countMultiplier := 1, speedMultiplier := 1, spawnRate := 4,
        opacityRange := (0.6, 0.9) }
  | IntensityLevel.high =>
      { countMultiplier := 1.8, speedMultiplier := 1.15, spawnRate := 8,
        opacityRange := (0.7, 1.0) }

/-- Effect configuration options (types.ts, EffectOptions).  The bounds field
(a DOMRect pass-through that no engine code reads) is omitted. -/
structure EffectOptions where
  intensity : Option IntensityLevel := none
  colors : Option (List String) := none
  duration : Option ℚ := none
  zIndex : Option Int := none
  disableOnReducedMotion : Option Bool := none
deriving DecidableEq

/-- The full-viewport canvas as the update hook sees it (width/height). -/
structure Canvas where
  width : ℚ
  height : ℚ
deriving DecidableEq

/-- Effect renderer capability (ParticleEngine.ts, interface EffectRenderer).
spawn mutates the freshly acquired particle in place — modelled by returning
the initialized particle; update mutates the particle and returns keepAlive —
modelled by returning both; render is a pure draw call and is not modelled.
getMaxParticles is a Nat: every renderer in the repository returns
Math.min(Math.floor(...), ...) of integers. -/
structure EffectRenderer where
  spawn : Particle → EffectOptions → Particle
  update : Particle → ℚ → Canvas → Particle × Bool
  getMaxParticles : EffectOptions → Nat

/-- One entry of the global particle table (ParticleEngine.ts, line 49):
the record plus the owning session's id. -/
structure PEntry where
  particle : Particle
  effectId : String
deriving DecidableEq

/-- Active effect session state (ParticleEngine.ts, interface ActiveEffect).
The EffectInstance handle is flattened into instanceId/etype; particleIds is
the session's JS Set in insertion order. -/
structure ActiveEffect where
  instanceId : String
  etype : String
  renderer : EffectRenderer
  options : EffectOptions
  particleIds : List Nat
  lastSpawnTime : ℚ

/-- Events emitted by the engine (start/stop/burst). -/
inductive EngineEvent where
  | start (etype : String)
  | stop (etype : String)
  | burst (etype : String)
deriving DecidableEq

/-- The session handle returned by start (types.ts, EffectInstance).  The stop
closure is either () => {} (isNoop) or () => engine.stop(instance). -/
structure Handle where
  id : String
  etype : String
  isNoop : Bool
deriving DecidableEq

/-! ### Association-list maps in insertion order (JS Map / Set) -/

/-- Map.get: value of the entry with the given key. -/
def mapLookup {κ α : Type} [DecidableEq κ] : List (κ × α) → κ → Option α
  | [], _ => none
  | kv :: rest, k => if kv.1 = k then some kv.2 else mapLookup rest k

/-- Map.set: replace the existing entry in place, else append. -/
def mapSet {κ α : Type} [DecidableEq κ] : List (κ × α) → κ → α → List (κ × α)
  | [], k, v => [(k, v)]
  | kv :: rest, k, v => if kv.1 = k then (k, v) :: rest else kv :: mapSet rest k v

/-- Map.delete: remove the entry with the given key. -/
def mapDelete {κ α : Type} [DecidableEq κ] : List (κ × α) → κ → List (κ × α)
  | [], _ => []
  | kv :: rest, k => if kv.1 = k then rest else kv :: mapDelete rest k

/-- Mutation of the object stored under a key (JS maps hold references; code
like activeEffect.particleIds.add(..) mutates the value in place). -/
def mapAdjust {κ α : Type} [DecidableEq κ] (l : List (κ × α)) (k : κ) (f : α → α) :
    List (κ × α) :=
  l.map fun kv => if kv.1 = k then (kv.1, f kv.2) else kv

/-- Set.add: append if absent. -/
def setAdd (l : List Nat) (x : Nat) : List Nat :=
  if x ∈ l then l else l ++ [x]

/-- Keys of an association list, in insertion order. -/
def keys {κ α : Type} (l : List (κ × α)) : List κ :=
  l.map Prod.fst

/-! ### Engine state and operations -/

/-- The engine state (ParticleEngine.ts, fields of class ParticleEngine).
canvas/ctx presence is the hasContext flag plus the Canvas dimensions;
animationId bookkeeping of requestAnimationFrame is outside the model (ticks
arrive as operations).  events is the log of emitted events. -/
structure EngineState where
  pool : ParticlePool
  particles : List (Nat × PEntry)
  effects : List (String × EffectRenderer)
  activeEffects : List (String × ActiveEffect)
  globalIntensity : IntensityLevel
  particleIdCounter : Nat
  prefersReducedMotion : Bool
  lastFrameTime : ℚ
  isPaused : Bool
  isVisible : Bool
  hasContext : Bool
  canvas : Canvas
  monitor : PerformanceMonitor
  events : List EngineEvent

/-- The engine as constructed (ParticleEngine.ts ctor: pool of 500, fresh
monitor, medium global intensity) once init succeeded, with the initial
reduced-motion preference supplied by the media query. -/
def initialState (canvas : Canvas) (prm : Bool) : EngineState :=
  { pool := ParticlePool.new 500
    particles := []
    effects := []
    activeEffects := []
    globalIntensity := IntensityLevel.medium
    particleIdCounter := 0
    prefersReducedMotion := prm
    lastFrameTime := 0
    isPaused := false
    isVisible := true
    hasContext := true
    canvas := canvas
    monitor := PerformanceMonitor.new
    events := [] }

/-- emit(event, data): synchronous dispatch to listeners (their exceptions are
caught and logged); the model records the emission. -/
def emit (s : EngineState) (e : EngineEvent) : EngineState :=
  { s with events := s.events ++ [e] }

/-- registerEffect(type, renderer): associate, overwriting silently. -/
def ParticleEngine.registerEffect (s : EngineState) (ty : String)
    (r : EffectRenderer) : EngineState :=
  { s with effects := mapSet s.effects ty r }

/-- spawnParticleForEffect (ParticleEngine.ts, lines 230-248): refuse when the
global table holds MAX_PARTICLES_GLOBAL particles; refuse when the session is
at its effect's capacity; otherwise acquire from the pool, run the effect's
spawn hook, and enter the particle into the table and the session's id set.
The source receives the ActiveEffect object itself; callers always pass the
map's entry for effectId, so the model re-reads it from the map (the none
branch is unreachable for the source's callers). -/
def spawnParticleForEffect (s : EngineState) (effectId : String) :
    EngineState × Bool :=
  if PERFORMANCE_BUDGET.MAX_PARTICLES_GLOBAL ≤ s.particles.length then
    (s, false)
  else
    match mapLookup s.activeEffects effectId with
    | none => (s, false)
    | some ae =>
      if ae.renderer.getMaxParticles ae.options ≤ ae.particleIds.length then
        (s, false)
      else
        let a := s.pool.acquire
        let particle := ae.renderer.spawn a.1 ae.options
        let pid := s.particleIdCounter
        ({ s with
            pool := a.2
            particles := mapSet s.particles pid { particle := particle, effectId := effectId }
            activeEffects := mapAdjust s.activeEffects effectId
              (fun a0 => { a0 with particleIds := setAdd a0.particleIds pid })
            particleIdCounter := pid + 1 }, true)

/-- The initial-population loop in start (lines 163-166): initialCount calls
of spawnParticleForEffect, results discarded. -/
def spawnLoop (effectId : String) : Nat → EngineState → EngineState
  | 0, s => s
  | n + 1, s => spawnLoop effectId n (spawnParticleForEffect s effectId).1

/-- createNoOpInstance (lines 362-368): handle whose stop is () => {}. -/
def createNoOpInstance (ty : String) : Handle :=
  { id := "noop-" ++ ty, etype := ty, isNoop := true }

/-- start(type, options) (lines 132-170): suppressed under reduced motion
unless explicitly overridden (options.disableOnReducedMotion !== false);
no-op handle when the type is unregistered (console.error, no throw);
otherwise create the session, pre-spawn floor(50% of capacity), emit start.
freshId stands for the generated id type-Date.now()-Math.random(); now for
performance.now(). -/
def ParticleEngine.start (s : EngineState) (ty : String) (opts : EffectOptions)
    (freshId : String) (now : ℚ) : EngineState × Handle :=
  if s.prefersReducedMotion = true ∧ opts.disableOnReducedMotion ≠ some false then
    (s, createNoOpInstance ty)
  else
    match mapLookup s.effects ty with
    | none => (s, createNoOpInstance ty)
    | some renderer =>
      let ae : ActiveEffect :=
        { instanceId := freshId, etype := ty, renderer := renderer, options := opts,
          particleIds := [], lastSpawnTime := now }
      let s1 := { s with activeEffects := mapSet s.activeEffects freshId ae }
      let maxParticles := renderer.getMaxParticles opts
      let initialCount := maxParticles / 2
      let s2 := spawnLoop freshId initialCount s1
      (emit s2 (EngineEvent.start ty), { id := freshId, etype := ty, isNoop := false })

/-- The body of stop's release loop (lines 177-183): look the particle up in
the global table; when present, release the record to the pool and delete the
table entry. -/
def stopRelease (s : EngineState) (pid : Nat) : EngineState :=
  match mapLookup s.particles pid with
  | none => s
  | some entry =>
      { s with
        pool := s.pool.release entry.particle
        particles := mapDelete s.particles pid }

/-- stop(instance) (lines 172-187): no-op when the session no longer exists;
otherwise release every owned particle, delete the session, emit stop. -/
def ParticleEngine.stop (s : EngineState) (instId : String) (ty : String) :
    EngineState :=
  match mapLookup s.activeEffects instId with
  | none => s
  | some ae =>
      let s1 := ae.particleIds.foldl stopRelease s
      let s2 := { s1 with activeEffects := mapDelete s1.activeEffects instId }
      emit s2 (EngineEvent.stop ty)

/-- The body of stopAll's release loop (lines 191-196): release the record to
the pool; the table entry itself is not deleted here (the whole table is
cleared afterwards). -/
def stopAllRelease (acc : EngineState) (pid : Nat) : EngineState :=
  match mapLookup acc.particles pid with
  | none => acc
  | some entry => { acc with pool := acc.pool.release entry.particle }

/-- stopAll() (lines 189-201): release every particle of every session (the
table is only read during the loop), then clear the table and the session map.
No events are emitted. -/
def ParticleEngine.stopAll (s : EngineState) : EngineState :=
  let s1 := s.activeEffects.foldl
    (fun acc kv => kv.2.particleIds.foldl stopAllRelease acc) s
  { s1 with particles := [], activeEffects := [] }

/-- setIntensity(level) (lines 207-212): store the global hint; "off" triggers
stopAll. -/
def ParticleEngine.setIntensity (s : EngineState) (level : IntensityLevel) :
    EngineState :=
  let s1 := { s with globalIntensity := level }
  if level = IntensityLevel.off then ParticleEngine.stopAll s1 else s1

/-- setPaused(paused) (lines 214-216). -/
def ParticleEngine.setPaused (s : EngineState) (b : Bool) : EngineState :=
  { s with isPaused := b }

/-- handleVisibilityChange (lines 274-276). -/
def handleVisibilityChange (s : EngineState) (visible : Bool) : EngineState :=
  { s with isVisible := visible }

/-- The reduced-motion subscription wired in the constructor (lines 67-71):
record the new preference; when it turns on, stopAll. -/
def onReducedMotionChange (s : EngineState) (b : Bool) : EngineState :=
  let s1 := { s with prefersReducedMotion := b }
  if b then ParticleEngine.stopAll s1 else s1

/-- stop() of a returned handle: () => {} for a no-op handle, else
() => engine.stop(instance). -/
def stopHandle (s : EngineState) (h : Handle) : EngineState :=
  if h.isNoop then s else ParticleEngine.stop s h.id h.etype

/-! ### The tick (renderLoop, lines 290-360) -/

/-- The continuous-spawn step for one session (lines 311-319): compute the
spawn interval 1000/spawnRate from the session's own intensity (defaulting to
medium); when the elapsed wall time since the session's last spawn reaches it,
attempt one spawn and stamp lastSpawnTime := currentTime whether or not the
spawn was refused.  In JS, 1000/0 is Infinity and the comparison is then
false, hence the 0 < spawnRate conjunct. -/
def spawnPhaseStep (currentTime : ℚ) (s : EngineState) (effectId : String) :
    EngineState :=
  match mapLookup s.activeEffects effectId with
  | none => s
  | some ae =>
      let intensity := ae.options.intensity.getD IntensityLevel.medium
      let config := INTENSITY_MAP intensity
      if 0 < config.spawnRate ∧ 1000 / config.spawnRate ≤ currentTime - ae.lastSpawnTime then
        let s1 := (spawnParticleForEffect s effectId).1
        { s1 with
          activeEffects := mapAdjust s1.activeEffects effectId
            (fun a0 => { a0 with lastSpawnTime := currentTime }) }
      else s

/-- The continuous-spawn phase (line 311, activeEffects.forEach): the key set
of activeEffects is unchanged by the steps, so iterating the keys read at
phase entry is the Map.forEach order. -/
def spawnPhase (s : EngineState) (currentTime : ℚ) : EngineState :=
  (keys s.activeEffects).foldl (spawnPhaseStep currentTime) s

/-- The spawn-phase guard for one session (line 316): the session's intensity
has a positive spawn rate (JS: 1000/0 is Infinity, so rate 0 never fires) and
the elapsed wall-time since the session's last spawn reaches the spawn
interval 1000/rate ms. -/
def spawnDue (ae : ActiveEffect) (now : ℚ) : Prop :=
  0 < (INTENSITY_MAP (ae.options.intensity.getD IntensityLevel.medium)).spawnRate ∧
  1000 / (INTENSITY_MAP (ae.options.intensity.getD IntensityLevel.medium)).spawnRate ≤
    now - ae.lastSpawnTime

/-- The update-and-render pass (lines 322-339, particles.forEach): rebuild the
table with each particle advanced by its owning effect's update hook (in-place
mutation of the record), collecting into toRemove the ids whose session is
gone or whose update returned false.  render (line 338) is a pure draw call.
The update hooks of this repository's effects do not re-enter the engine, so
iterating the entry list read at phase entry is the Map.forEach order; the
iteration semantics under re-entrant mutation is modelled separately by
forEachLive.  updateBody is the forEach callback (lines 324-339); updatePhase
is the whole pass. -/
def updateBody (s : EngineState) (deltaNormalized : ℚ)
    (acc : List (Nat × PEntry) × List Nat) (kv : Nat × PEntry) :
    List (Nat × PEntry) × List Nat :=
  match mapLookup s.activeEffects kv.2.effectId with
  | none => (acc.1 ++ [kv], acc.2 ++ [kv.1])
  | some ae =>
      let r := ae.renderer.update kv.2.particle deltaNormalized s.canvas
      (acc.1 ++ [(kv.1, { particle := r.1, effectId := kv.2.effectId })],
        if r.2 then acc.2 else acc.2 ++ [kv.1])

def updatePhase (s : EngineState) (deltaNormalized : ℚ) :
    List (Nat × PEntry) × List Nat :=
  s.particles.foldl (updateBody s deltaNormalized) ([], [])

/-- Reclaim of one dead particle (lines 342-352): detach it from its session's
id set, release the record to the pool, delete the table entry. -/
def removeStep (s : EngineState) (pid : Nat) : EngineState :=
  match mapLookup s.particles pid with
  | none => s
  | some entry =>
      let s1 :=
        match mapLookup s.activeEffects entry.effectId with
        | none => s
        | some _ =>
            { s with
              activeEffects := mapAdjust s.activeEffects entry.effectId
                (fun a0 => { a0 with particleIds := a0.particleIds.erase pid }) }
      { s1 with
        pool := s1.pool.release entry.particle
        particles := mapDelete s1.particles pid }

/-- The reclaim pass (line 342, toRemove.forEach). -/
def removePhase (s : EngineState) (toRemove : List Nat) : EngineState :=
  toRemove.foldl removeStep s

/-- One tick (renderLoop, lines 290-360): skip when paused, hidden, or without
a context; clamp deltaTime to MAX_DELTA_CLAMP and normalize by 16.67 ms; run
the spawn phase, the update/render pass, the reclaim pass; feed the frame
sample to the monitor (frameElapsed models performance.now() - frameStartTime);
and when the monitor is critical and the global intensity is not already low,
downgrade to low.  currentTime is the requestAnimationFrame timestamp. -/
def renderLoop (s : EngineState) (currentTime frameElapsed : ℚ) : EngineState :=
  if s.isPaused = true ∨ s.isVisible = false ∨ s.hasContext = false then s
  else
    let deltaTime := min (currentTime - s.lastFrameTime) PERFORMANCE_BUDGET.MAX_DELTA_CLAMP
    let s1 := { s with lastFrameTime := currentTime }
    let deltaNormalized := deltaTime / 16.67
    let s2 := spawnPhase s1 currentTime
    let ur := updatePhase s2 deltaNormalized
    let s3 := removePhase { s2 with particles := ur.1 } ur.2
    let em := s3.monitor.endFrame frameElapsed s3.particles.length
    let s4 := { s3 with monitor := em.1 }
    if s4.monitor.isCritical = true ∧ s4.globalIntensity ≠ IntensityLevel.low then
      ParticleEngine.setIntensity s4 IntensityLevel.low
    else s4

/-! ### Reachability -/

/-- One engine operation, for quantifying over call sequences. -/
inductive EngineOp where
  | registerEffect (ty : String) (r : EffectRenderer)
  | start (ty : String) (opts : EffectOptions) (freshId : String) (now : ℚ)
  | stop (instId ty : String)
  | stopAll
  | setIntensity (level : IntensityLevel)
  | setPaused (b : Bool)
  | visibilityChange (visible : Bool)
  | reducedMotionChange (b : Bool)
  | tick (currentTime frameElapsed : ℚ)

/-- Apply one operation (start's handle is returned to the caller and does not
change the state beyond what start did). -/
def applyOp (s : EngineState) : EngineOp → EngineState
  | EngineOp.registerEffect ty r => ParticleEngine.registerEffect s ty r
  | EngineOp.start ty opts freshId now => (ParticleEngine.start s ty opts freshId now).1
  | EngineOp.stop instId ty => ParticleEngine.stop s instId ty
  | EngineOp.stopAll => ParticleEngine.stopAll s
  | EngineOp.setIntensity level => ParticleEngine.setIntensity s level
  | EngineOp.setPaused b => ParticleEngine.setPaused s b
  | EngineOp.visibilityChange v => handleVisibilityChange s v
  | EngineOp.reducedMotionChange b => onReducedMotionChange s b
  | EngineOp.tick t fe => renderLoop s t fe

/-- Side condition of an operation: a start's generated session id
(type-Date.now()-Math.random()) does not collide with a live session id — the
probability-zero collision is excluded. -/
def FreshOk (s : EngineState) : EngineOp → Prop
  | EngineOp.start _ _ freshId _ => mapLookup s.activeEffects freshId = none
  | _ => True

/-- States reachable from the freshly initialized engine by engine
operations. -/
inductive Reachable : EngineState → Prop where
  | init (canvas : Canvas) (prm : Bool) : Reachable (initialState canvas prm)
  | step (s : EngineState) (op : EngineOp) :
      Reachable s → FreshOk s op → Reachable (applyOp s op)

/-- Well-formedness of the engine state: the bookkeeping invariants the source
maintains between the particle table, the sessions' id sets, the id counter
and the pool's active counter.  Every reachable state satisfies them (proved
below). -/
structure WF (s : EngineState) : Prop where
  particles_nodup : (keys s.particles).Nodup
  sessions_nodup : (keys s.activeEffects).Nodup
  owned_nodup : ∀ kv ∈ s.activeEffects, kv.2.particleIds.Nodup
  owned_in_table : ∀ kv ∈ s.activeEffects, ∀ pid ∈ kv.2.particleIds,
      ∃ e, (pid, e) ∈ s.particles ∧ e.effectId = kv.1
  table_owned : ∀ pe ∈ s.particles, ∃ kv ∈ s.activeEffects,
      kv.1 = pe.2.effectId ∧ pe.1 ∈ kv.2.particleIds
  counter_big : ∀ pe ∈ s.particles, pe.1 < s.particleIdCounter
  count_eq : s.pool.activeCount = s.particles.length
  sum_owned : ((s.activeEffects.map fun kv => kv.2.particleIds.length).sum) =
      s.particles.length

/-- Number of entries of the global particle table that reference the given
session id. -/
def refsSession (s : EngineState) (id : String) : Nat :=
  (s.particles.filter fun pe => pe.2.effectId = id).length

/-- Number of particles owned by the given session (0 when absent). -/
def countOwned (s : EngineState) (id : String) : Nat :=
  match mapLookup s.activeEffects id with
  | none => 0
  | some ae => ae.particleIds.length

/-- Every particle of the state survives one update pass: each table entry's
owning session exists and that session's renderer keeps every particle alive
(update returns keepAlive = true).  Threaded through the ticks of the
starved-window counterexample, where the table pinned at the ceiling never
shrinks. -/
def KeepsAll (s : EngineState) : Prop :=
  ∀ pe ∈ s.particles, ∃ ae,
    mapLookup s.activeEffects pe.2.effectId = some ae ∧
    ∀ p dn cv, (ae.renderer.update p dn cv).2 = true

/-! ### Live Map iteration (claim C2)

The update/render pass is `this.particles.forEach(...)` (line 324).
ECMAScript Map.prototype.forEach iterates the LIVE map, not a snapshot: it
visits entries in insertion order, an entry appended during the iteration is
visited when the cursor reaches it, and an entry deleted before being reached
is skipped.  forEachLive embeds that visiting semantics for a table whose keys
are never re-inserted after deletion (particle ids come from a monotone
counter, so a deleted id never reappears): the cursor is the list of keys
visited so far, and each step visits the first entry of the current table not
yet visited.  The body receives the current table and the visited key and
returns the table as possibly mutated by re-entrant engine calls made from
inside the effect's update hook; fuel bounds the iteration (table growth per
step is bounded, so any concrete run terminates). -/

/-- First entry of the table not yet visited (the forEach cursor). -/
def firstUnvisited (t : List (Nat × PEntry)) (visited : List Nat) : Option Nat :=
  (t.find? fun kv => decide (kv.1 ∉ visited)).map Prod.fst

/-- JS Map.forEach over the live table: returns the final table and the keys
visited, in order. -/
def forEachLive (body : List (Nat × PEntry) → Nat → List (Nat × PEntry)) :
    Nat → List (Nat × PEntry) → List Nat → List (Nat × PEntry) × List Nat
  | 0, t, visited => (t, visited)
  | fuel + 1, t, visited =>
      match firstUnvisited t visited with
      | none => (t, visited)
      | some k => forEachLive body fuel (body t k) (visited ++ [k])

/-- A body that performs no re-entrant engine call leaves the table unchanged;
removal requested through update's keepAlive return value does not mutate the
table (it is queued in toRemove and applied after the iteration, lines
323-352). -/
def inertBody : List (Nat × PEntry) → Nat → List (Nat × PEntry) :=
  fun t _ => t

/-- A particle entry for the C2 scenario. -/
def c2Entry : PEntry :=
  { particle := createParticle, effectId := "fx" }

/-- The body in which the update hook of particle 0 re-enters the engine with
a start call whose pre-spawn appends particle 1 to the live table (spawn
enters the new particle via Map.set, which appends). -/
def reentrantBody : List (Nat × PEntry) → Nat → List (Nat × PEntry) :=
  fun t k => if k = 0 then t ++ [(1, c2Entry)] else t

/-! ## Concrete fixtures used by witnesses and counterexamples -/

/-- An effect renderer whose hooks are inert: spawn keeps the acquired record,
update keeps every particle alive unchanged, capacity is the given constant.
This is a legitimate implementation of the EffectRenderer interface. -/
def constRenderer (cap : Nat) : EffectRenderer :=
  { spawn := fun p _ => p
    update := fun p _ _ => (p, true)
    getMaxParticles := fun _ => cap }

/-- A state whose global particle table is full (100 entries) while its one
session has plenty of capacity headroom (capacity 1000, owns 100). -/
def c1FullState : EngineState :=
  { initialState { width := 800, height := 600 } false with
    particles := (List.range 100).map fun i =>
      (i, { particle := createParticle, effectId := "A" })
    activeEffects := [("A",
      { instanceId := "A", etype := "fx", renderer := constRenderer 1000,
        options := {}, particleIds := List.range 100, lastSpawnTime := 0 })] }

/-- Engine state used by the C3 witness: fresh engine, one registered effect
of capacity 2. -/
def c3Reg : EngineState :=
  applyOp (initialState { width := 640, height := 480 } false)
    (EngineOp.registerEffect "fx" (constRenderer 2))

/-- The C3 witness state: one session "S" started, owning the single
pre-spawned particle (50% of capacity 2). -/
def c3Started : EngineState :=
  applyOp c3Reg (EngineOp.start "fx" {} "S" 0)

/-- The session record held by c3Started under id "S". -/
def c3AE : ActiveEffect :=
  { instanceId := "S", etype := "fx", renderer := constRenderer 2,
    options := {}, particleIds := [0], lastSpawnTime := 0 }

/-- C5 counterexample state: an effect registered with capacity 202. -/
def c5Reg : EngineState :=
  applyOp (initialState { width := 800, height := 600 } false)
    (EngineOp.registerEffect "F" (constRenderer 202))

/-- C5 counterexample state: the capacity-202 effect started on the empty
table; the pre-spawn loop attempts floor(202 * 0.5) = 101 spawns. -/
def c5Started : EngineState :=
  applyOp c5Reg (EngineOp.start "F" {} "S" 0)

/-- C5 witness state: an effect registered with capacity 80. -/
def c5WReg : EngineState :=
  applyOp (initialState { width := 800, height := 600 } false)
    (EngineOp.registerEffect "G" (constRenderer 80))

/-- C4 counterexample state: a capacity-200 effect "big" and a capacity-10
effect "small" registered on the fresh engine. -/
def c4Reg : EngineState :=
  applyOp (applyOp (initialState { width := 800, height := 600 } false)
    (EngineOp.registerEffect "big" (constRenderer 200)))
    (EngineOp.registerEffect "small" (constRenderer 10))

/-- Starting the big session pre-spawns min(floor(200 * 0.5), 100) = 100
particles, filling the global table to the ceiling. -/
def c4S1 : EngineState :=
  applyOp c4Reg (EngineOp.start "big" {} "A" 0)

/-- Starting the small session: all five pre-spawn attempts are refused by
the full table, so session B owns zero particles. -/
def c4S2 : EngineState :=
  applyOp c4S1 (EngineOp.start "small" {} "B" 0)

/-- Two ticks at 250 ms and 500 ms: a half-second window in which session B
(default medium intensity, spawn rate 4/s, interval 250 ms) is due to spawn
at both ticks; the claim's windowed bound floor(0.5 * 4) = 2 plus or minus 1
promises it at least one spawn. -/
def c4Final : EngineState :=
  applyOp (applyOp c4S2 (EngineOp.tick 250 1)) (EngineOp.tick 500 1)

/-- C4 witness state: a capacity-6 effect registered on the fresh engine. -/
def c4WReg : EngineState :=
  applyOp (initialState { width := 800, height := 600 } false)
    (EngineOp.registerEffect "fx" (constRenderer 6))

/-- C4 witness state: the capacity-6 effect started as session W; the
pre-spawn populates 3 particles. -/
def c4WStarted : EngineState :=
  applyOp c4WReg (EngineOp.start "fx" {} "W" 0)

/-- The session record held by c4WStarted under id "W". -/
def c4WAE : ActiveEffect :=
  { instanceId := "W", etype := "fx", renderer := constRenderer 6,
    options := {}, particleIds := [0, 1, 2], lastSpawnTime := 0 }

/-! ## Theorems -/

/-! ### Association-list map lemmas -/

section MapLemmas

variable {κ α : Type} [DecidableEq κ]

lemma keys_mapAdjust (l : List (κ × α)) (k : κ) (f : α → α) :
    keys (mapAdjust l k f) = keys l := by
  simp only [keys, mapAdjust, List.map_map]
  congr 1
  funext kv
  by_cases h : kv.1 = k <;> simp [h]

lemma mapLookup_mapAdjust (l : List (κ × α)) (k : κ) (f : α → α) :
    mapLookup (mapAdjust l k f) k = (mapLookup l k).map f := by
  induction l with
  | nil => rfl
  | cons kv rest ih =>
      by_cases h : kv.1 = k <;>
        simp [mapAdjust, mapLookup, h, ih] <;>
        simpa [mapAdjust] using ih

lemma mapLookup_mapAdjust_ne (l : List (κ × α)) (k k' : κ) (f : α → α)
    (h : k' ≠ k) : mapLookup (mapAdjust l k f) k' = mapLookup l k' := by
  induction l with
  | nil => rfl
  | cons kv rest ih =>
      obtain ⟨a, b⟩ := kv
      show mapLookup ((if a = k then (a, f b) else (a, b)) :: mapAdjust rest k f) k' =
        mapLookup ((a, b) :: rest) k'
      by_cases hk : a = k
      · have ha : ¬ a = k' := by rw [hk]; exact fun he => h he.symm
        rw [if_pos hk]
        show (if a = k' then some (f b) else mapLookup (mapAdjust rest k f) k') = _
        rw [if_neg ha]
        show _ = (if a = k' then some b else mapLookup rest k')
        rw [if_neg ha]
        exact ih
      · rw [if_neg hk]
        show (if a = k' then some b else mapLookup (mapAdjust rest k f) k') =
          (if a = k' then some b else mapLookup rest k')
        by_cases ha : a = k'
        · rw [if_pos ha, if_pos ha]
        · rw [if_neg ha, if_neg ha]
          exact ih

lemma mapLookup_mapSet_self (l : List (κ × α)) (k : κ) (v : α) :
    mapLookup (mapSet l k v) k = some v := by
  induction l with
  | nil => simp [mapSet, mapLookup]
  | cons kv rest ih =>
      by_cases h : kv.1 = k <;> simp [mapSet, mapLookup, h, ih]

lemma mapLookup_mapSet_ne (l : List (κ × α)) (k k' : κ) (v : α) (h : k' ≠ k) :
    mapLookup (mapSet l k v) k' = mapLookup l k' := by
  have hke : ¬ k = k' := fun he => h he.symm
  induction l with
  | nil =>
      show (if k = k' then some v else mapLookup [] k') = mapLookup [] k'
      rw [if_neg hke]
  | cons kv rest ih =>
      obtain ⟨a, b⟩ := kv
      by_cases hk : a = k
      · show mapLookup (if a = k then (k, v) :: rest else (a, b) :: mapSet rest k v) k' =
          mapLookup ((a, b) :: rest) k'
        rw [if_pos hk]
        show (if k = k' then some v else mapLookup rest k') =
          (if a = k' then some b else mapLookup rest k')
        have ha : ¬ a = k' := by rw [hk]; exact hke
        rw [if_neg hke, if_neg ha]
      · show mapLookup (if a = k then (k, v) :: rest else (a, b) :: mapSet rest k v) k' =
          mapLookup ((a, b) :: rest) k'
        rw [if_neg hk]
        show (if a = k' then some b else mapLookup (mapSet rest k v) k') =
          (if a = k' then some b else mapLookup rest k')
        by_cases ha : a = k'
        · rw [if_pos ha, if_pos ha]
        · rw [if_neg ha, if_neg ha]
          exact ih

lemma mapLookup_eq_none_iff (l : List (κ × α)) (k : κ) :
    mapLookup l k = none ↔ k ∉ keys l := by
  induction l with
  | nil => simp [mapLookup, keys]
  | cons kv rest ih =>
      show (if kv.1 = k then some kv.2 else mapLookup rest k) = none ↔
        k ∉ keys (kv :: rest)
      by_cases h : kv.1 = k
      · rw [if_pos h]
        simp [keys, h]
      · rw [if_neg h]
        rw [ih]
        simp only [keys, List.map_cons, List.mem_cons, not_or]
        constructor
        · intro hnk
          exact ⟨fun he => h he.symm, hnk⟩
        · intro hp
          exact hp.2

lemma mapLookup_mem (l : List (κ × α)) (k : κ) (v : α)
    (h : mapLookup l k = some v) : (k, v) ∈ l := by
  induction l with
  | nil => simp [mapLookup] at h
  | cons kv rest ih =>
      obtain ⟨a, b⟩ := kv
      by_cases hk : a = k
      · have hb : b = v := by
          have := h
          show b = v
          rw [show mapLookup ((a, b) :: rest) k =
            (if a = k then some b else mapLookup rest k) from rfl, if_pos hk] at this
          exact Option.some.inj this
        subst hk
        subst hb
        exact List.mem_cons_self _ _
      · rw [show mapLookup ((a, b) :: rest) k =
          (if a = k then some b else mapLookup rest k) from rfl, if_neg hk] at h
        exact List.mem_cons_of_mem _ (ih h)

lemma mapLookup_some_mem_keys (l : List (κ × α)) (k : κ) (v : α)
    (h : mapLookup l k = some v) : k ∈ keys l :=
  List.mem_map_of_mem Prod.fst (mapLookup_mem l k v h)

lemma mem_mapLookup (l : List (κ × α)) (k : κ) (v : α)
    (hnd : (keys l).Nodup) (h : (k, v) ∈ l) : mapLookup l k = some v := by
  induction l with
  | nil => simp at h
  | cons kv rest ih =>
      simp only [keys, List.map_cons, List.nodup_cons] at hnd
      rcases List.mem_cons.mp h with he | hm
      · subst he
        simp [mapLookup]
      · have hk : ¬ kv.1 = k := by
          intro hk
          exact hnd.1 (hk ▸ List.mem_map_of_mem Prod.fst hm)
        simp only [mapLookup, if_neg hk]
        exact ih hnd.2 hm

lemma mapSet_eq_append (l : List (κ × α)) (k : κ) (v : α)
    (h : mapLookup l k = none) : mapSet l k v = l ++ [(k, v)] := by
  induction l with
  | nil => rfl
  | cons kv rest ih =>
      by_cases hk : kv.1 = k
      · simp [mapLookup, hk] at h
      · simp only [mapLookup, if_neg hk] at h
        simp [mapSet, hk, ih h]

lemma length_mapSet_le (l : List (κ × α)) (k : κ) (v : α) :
    (mapSet l k v).length ≤ l.length + 1 := by
  induction l with
  | nil => simp [mapSet]
  | cons kv rest ih =>
      by_cases hk : kv.1 = k <;> simp [mapSet, hk] <;> omega

lemma keys_mapSet_of_mem (l : List (κ × α)) (k : κ) (v : α) (h : k ∈ keys l) :
    keys (mapSet l k v) = keys l := by
  induction l with
  | nil => simp [keys] at h
  | cons kv rest ih =>
      by_cases hk : kv.1 = k
      · show keys (if kv.1 = k then (k, v) :: rest else kv :: mapSet rest k v) = _
        rw [if_pos hk]
        simp [keys, hk]
      · have hm : k ∈ keys rest := by
          rcases (by simpa [keys] using h : k = kv.1 ∨ k ∈ keys rest) with he | hm
          · exact absurd he.symm hk
          · exact hm
        show keys (if kv.1 = k then (k, v) :: rest else kv :: mapSet rest k v) = _
        rw [if_neg hk]
        show kv.1 :: keys (mapSet rest k v) = kv.1 :: keys rest
        rw [ih hm]

lemma length_mapSet_of_mem (l : List (κ × α)) (k : κ) (v : α) (h : k ∈ keys l) :
    (mapSet l k v).length = l.length := by
  have := congrArg List.length (keys_mapSet_of_mem l k v h)
  simpa [keys] using this

lemma mapDelete_sublist (l : List (κ × α)) (k : κ) : (mapDelete l k).Sublist l := by
  induction l with
  | nil => simp [mapDelete]
  | cons kv rest ih =>
      by_cases hk : kv.1 = k
      · simpa [mapDelete, hk] using List.sublist_cons_self kv rest
      · simpa [mapDelete, hk] using List.Sublist.cons₂ kv ih

lemma mapLookup_mapDelete_self (l : List (κ × α)) (k : κ)
    (hnd : (keys l).Nodup) : mapLookup (mapDelete l k) k = none := by
  induction l with
  | nil => rfl
  | cons kv rest ih =>
      simp only [keys, List.map_cons, List.nodup_cons] at hnd
      by_cases hk : kv.1 = k
      · simp only [mapDelete, if_pos hk]
        apply (mapLookup_eq_none_iff rest k).mpr
        rw [← hk]
        exact hnd.1
      · simp only [mapDelete, if_neg hk, mapLookup, if_neg hk]
        exact ih hnd.2

lemma mapLookup_mapDelete_ne (l : List (κ × α)) (k k' : κ) (h : k' ≠ k) :
    mapLookup (mapDelete l k) k' = mapLookup l k' := by
  induction l with
  | nil => rfl
  | cons kv rest ih =>
      show mapLookup (if kv.1 = k then rest else kv :: mapDelete rest k) k' =
        mapLookup (kv :: rest) k'
      by_cases hk : kv.1 = k
      · have ha : ¬ kv.1 = k' := by rw [hk]; exact fun he => h he.symm
        rw [if_pos hk]
        show _ = (if kv.1 = k' then some kv.2 else mapLookup rest k')
        rw [if_neg ha]
      · rw [if_neg hk]
        show (if kv.1 = k' then some kv.2 else mapLookup (mapDelete rest k) k') =
          (if kv.1 = k' then some kv.2 else mapLookup rest k')
        by_cases ha : kv.1 = k'
        · rw [if_pos ha, if_pos ha]
        · rw [if_neg ha, if_neg ha]
          exact ih

lemma length_mapDelete_of_some (l : List (κ × α)) (k : κ) (v : α)
    (h : mapLookup l k = some v) : (mapDelete l k).length + 1 = l.length := by
  induction l with
  | nil => simp [mapLookup] at h
  | cons kv rest ih =>
      by_cases hk : kv.1 = k
      · simp [mapDelete, hk]
      · simp only [mapLookup, if_neg hk] at h
        simp [mapDelete, hk, ih h]

lemma length_mapDelete_le (l : List (κ × α)) (k : κ) :
    (mapDelete l k).length ≤ l.length :=
  (mapDelete_sublist l k).length_le

lemma keys_mapDelete_nodup (l : List (κ × α)) (k : κ) (hnd : (keys l).Nodup) :
    (keys (mapDelete l k)).Nodup :=
  List.Nodup.sublist (List.Sublist.map Prod.fst (mapDelete_sublist l k)) hnd

lemma mem_of_mem_mapDelete (l : List (κ × α)) (k : κ) (kv : κ × α)
    (h : kv ∈ mapDelete l k) : kv ∈ l :=
  (mapDelete_sublist l k).mem h

lemma mapAdjust_of_not_mem (l : List (κ × α)) (k : κ) (f : α → α)
    (h : k ∉ keys l) : mapAdjust l k f = l := by
  induction l with
  | nil => rfl
  | cons kv rest ih =>
      simp only [keys, List.map_cons, List.mem_cons, not_or] at h
      have hk : ¬ kv.1 = k := fun he => h.1 he.symm
      simp [mapAdjust, hk]
      exact (by simpa [mapAdjust] using ih (by simpa [keys] using h.2))

lemma mem_mapAdjust_of_mem (l : List (κ × α)) (k : κ) (f : α → α) (kv : κ × α)
    (h : kv ∈ mapAdjust l k f) :
    (∃ v0, (k, v0) ∈ l ∧ kv = (k, f v0)) ∨ (kv ∈ l ∧ kv.1 ≠ k) := by
  simp only [mapAdjust, List.mem_map] at h
  obtain ⟨kv0, hkv0, heq⟩ := h
  by_cases hk : kv0.1 = k
  · left
    obtain ⟨a, b⟩ := kv0
    have ha : a = k := hk
    subst ha
    refine ⟨b, hkv0, ?_⟩
    rw [← heq]
    simp
  · right
    constructor
    · rw [← heq, if_neg hk]
      exact hkv0
    · rw [← heq, if_neg hk]
      exact hk

lemma sum_mapAdjust (g : α → Nat) (l : List (κ × α)) (k : κ) (f : α → α) (v : α)
    (hnd : (keys l).Nodup) (h : mapLookup l k = some v) :
    ((mapAdjust l k f).map fun kv => g kv.2).sum + g v =
      ((l.map fun kv => g kv.2).sum) + g (f v) := by
  induction l with
  | nil => simp [mapLookup] at h
  | cons kv rest ih =>
      obtain ⟨a, b⟩ := kv
      simp only [keys, List.map_cons, List.nodup_cons] at hnd
      by_cases hk : a = k
      · have hb : b = v := by
          have h2 := h
          rw [show mapLookup ((a, b) :: rest) k =
            (if a = k then some b else mapLookup rest k) from rfl, if_pos hk] at h2
          exact Option.some.inj h2
        subst hb
        have hrest : mapAdjust rest k f = rest := by
          apply mapAdjust_of_not_mem
          rw [← hk]
          exact hnd.1
        have hstep : mapAdjust ((a, b) :: rest) k f = (a, f b) :: rest := by
          show (if a = k then (a, f b) else (a, b)) :: mapAdjust rest k f = _
          rw [if_pos hk, hrest]
        rw [hstep]
        simp only [List.map_cons, List.sum_cons]
        omega
      · have h2 : mapLookup rest k = some v := by
          have h3 := h
          rw [show mapLookup ((a, b) :: rest) k =
            (if a = k then some b else mapLookup rest k) from rfl, if_neg hk] at h3
          exact h3
        have hstep : mapAdjust ((a, b) :: rest) k f = (a, b) :: mapAdjust rest k f := by
          show (if a = k then (a, f b) else (a, b)) :: mapAdjust rest k f = _
          rw [if_neg hk]
        have hih := ih hnd.2 h2
        rw [hstep]
        simp only [List.map_cons, List.sum_cons]
        omega

lemma sum_mapDelete (g : α → Nat) (l : List (κ × α)) (k : κ) (v : α)
    (h : mapLookup l k = some v) :
    ((mapDelete l k).map fun kv => g kv.2).sum + g v =
      (l.map fun kv => g kv.2).sum := by
  induction l with
  | nil => simp [mapLookup] at h
  | cons kv rest ih =>
      obtain ⟨a, b⟩ := kv
      by_cases hk : a = k
      · have hb : b = v := by
          have h2 := h
          rw [show mapLookup ((a, b) :: rest) k =
            (if a = k then some b else mapLookup rest k) from rfl, if_pos hk] at h2
          exact Option.some.inj h2
        subst hb
        have hstep : mapDelete ((a, b) :: rest) k = rest := by
          show (if a = k then rest else (a, b) :: mapDelete rest k) = rest
          rw [if_pos hk]
        rw [hstep]
        simp only [List.map_cons, List.sum_cons]
        omega
      · have h2 : mapLookup rest k = some v := by
          have h3 := h
          rw [show mapLookup ((a, b) :: rest) k =
            (if a = k then some b else mapLookup rest k) from rfl, if_neg hk] at h3
          exact h3
        have hstep : mapDelete ((a, b) :: rest) k = (a, b) :: mapDelete rest k := by
          show (if a = k then rest else (a, b) :: mapDelete rest k) = _
          rw [if_neg hk]
        have hih := ih h2
        rw [hstep]
        simp only [List.map_cons, List.sum_cons]
        omega

lemma mem_keys_lookup (l : List (κ × α)) (k : κ) (h : k ∈ keys l) :
    ∃ v, mapLookup l k = some v := by
  cases hl : mapLookup l k with
  | none => exact absurd h ((mapLookup_eq_none_iff l k).mp hl)
  | some v => exact ⟨v, rfl⟩

lemma unique_value (l : List (κ × α)) (k : κ) (a b : α)
    (hnd : (keys l).Nodup) (ha : (k, a) ∈ l) (hb : (k, b) ∈ l) : a = b := by
  have h1 := mem_mapLookup l k a hnd ha
  have h2 := mem_mapLookup l k b hnd hb
  rw [h1] at h2
  exact Option.some.inj h2

lemma mem_mapAdjust_of_ne (l : List (κ × α)) (k : κ) (f : α → α) (kv : κ × α)
    (h : kv ∈ l) (hne : kv.1 ≠ k) : kv ∈ mapAdjust l k f := by
  simp only [mapAdjust, List.mem_map]
  exact ⟨kv, h, by rw [if_neg hne]⟩

lemma mem_mapAdjust_self (l : List (κ × α)) (k : κ) (f : α → α) (v : α)
    (h : (k, v) ∈ l) : (k, f v) ∈ mapAdjust l k f := by
  simp only [mapAdjust, List.mem_map]
  exact ⟨(k, v), h, by simp⟩

lemma mem_mapDelete_of_key_ne (l : List (κ × α)) (k : κ) (kv : κ × α)
    (h : kv ∈ l) (hne : kv.1 ≠ k) : kv ∈ mapDelete l k := by
  induction l with
  | nil => simp at h
  | cons kv0 rest ih =>
      show kv ∈ (if kv0.1 = k then rest else kv0 :: mapDelete rest k)
      rcases List.mem_cons.mp h with he | hm
      · subst he
        rw [if_neg hne]
        exact List.mem_cons_self _ _
      · by_cases hk : kv0.1 = k
        · rw [if_pos hk]
          exact hm
        · rw [if_neg hk]
          exact List.mem_cons_of_mem _ (ih hm)

lemma not_mem_keys_mapDelete_self (l : List (κ × α)) (k : κ)
    (hnd : (keys l).Nodup) : k ∉ keys (mapDelete l k) :=
  (mapLookup_eq_none_iff (mapDelete l k) k).mp (mapLookup_mapDelete_self l k hnd)

lemma mem_mapDelete_key_ne (l : List (κ × α)) (k : κ) (kv : κ × α)
    (hnd : (keys l).Nodup) (h : kv ∈ mapDelete l k) : kv.1 ≠ k := by
  intro he
  have hmem : kv.1 ∈ keys (mapDelete l k) := List.mem_map_of_mem Prod.fst h
  rw [he] at hmem
  exact not_mem_keys_mapDelete_self l k hnd hmem

end MapLemmas

/-! ### Pool counter lemmas -/

lemma acquire_activeCount (p : ParticlePool) :
    (p.acquire).2.activeCount = p.activeCount + 1 := by
  unfold ParticlePool.acquire
  cases p.pool <;> rfl

lemma release_activeCount_of_pos (p : ParticlePool) (x : Particle)
    (h : 1 ≤ p.activeCount) :
    (p.release x).activeCount = p.activeCount - 1 := by
  unfold ParticlePool.release
  have hm : max 0 (p.activeCount - 1) = p.activeCount - 1 := by omega
  dsimp only
  split <;> exact hm

/-! ### Set-of-ids lemmas -/

lemma setAdd_of_not_mem (l : List Nat) (x : Nat) (h : x ∉ l) :
    setAdd l x = l ++ [x] := by
  simp [setAdd, h]

lemma setAdd_of_mem (l : List Nat) (x : Nat) (h : x ∈ l) : setAdd l x = l := by
  simp [setAdd, h]

lemma length_setAdd_le (l : List Nat) (x : Nat) :
    (setAdd l x).length ≤ l.length + 1 := by
  by_cases h : x ∈ l <;> simp [setAdd, h]

lemma nodup_setAdd (l : List Nat) (x : Nat) (h : l.Nodup) : (setAdd l x).Nodup := by
  by_cases hx : x ∈ l
  · simpa [setAdd, hx] using h
  · rw [setAdd_of_not_mem l x hx]
    simp [List.nodup_append, h, hx]

lemma mem_setAdd_iff (l : List Nat) (x y : Nat) :
    y ∈ setAdd l x ↔ y ∈ l ∨ y = x := by
  by_cases hx : x ∈ l
  · rw [setAdd_of_mem l x hx]
    constructor
    · exact Or.inl
    · rintro (h | rfl)
      · exact h
      · exact hx
  · rw [setAdd_of_not_mem l x hx]
    simp

lemma applyPoolOp_nonneg (p : ParticlePool) (op : PoolOp) (h : 0 ≤ p.activeCount) :
    0 ≤ (applyPoolOp p op).activeCount := by
  cases op with
  | prewarm n => exact h
  | acquire =>
      simp only [applyPoolOp, ParticlePool.acquire]
      cases p.pool <;> simp <;> omega
  | release particle =>
      simp only [applyPoolOp, ParticlePool.release]
      split <;> simp
  | clear => simp [applyPoolOp, ParticlePool.clear]

lemma runPool_nonneg (ops : List PoolOp) (p : ParticlePool) (h : 0 ≤ p.activeCount) :
    0 ≤ (runPool p ops).activeCount := by
  induction ops generalizing p with
  | nil => exact h
  | cons op rest ih => exact ih (applyPoolOp p op) (applyPoolOp_nonneg p op h)

lemma resetParticle_eq (p : Particle) : resetParticle p = createParticle := rfl

/-- C6: For every sequence of prewarm/acquire/release/clear calls on the pool,
activeCount never goes negative (every intermediate state is the final state of
a prefix, so quantifying over all sequences covers all intermediate states),
and every record returned by acquire() has all fields at their documented
defaults — position (0,0), velocity and acceleration 0, size 0, opacity 1,
color "#FFFFFF", rotation and rotationSpeed 0, life 0, maxLife 100, phase
active, empty meta — whether it was popped from the free list (reset first) or
freshly manufactured on exhaustion.  acquire is a total function of the pool
state: it always succeeds. -/
theorem c6_pool_conservation :
    (∀ (maxSize : Nat) (ops : List PoolOp),
        0 ≤ (runPool (ParticlePool.new maxSize) ops).activeCount) ∧
    (∀ p : ParticlePool, (ParticlePool.acquire p).1 = createParticle) := by
  constructor
  · intro maxSize ops
    apply runPool_nonneg
    simp [ParticlePool.new, ParticlePool.prewarm]
  · intro p
    simp only [ParticlePool.acquire]
    cases p.pool <;> simp [resetParticle_eq]

/-- C8: every endFrame call appends the elapsed frame time to a rolling window
holding at most 60 samples with the oldest evicted on overflow (the window
after the call is the at-most-60-sample suffix of old ++ [elapsed]), increments
the dropped-frame counter exactly when the elapsed time exceeds the 16 ms
MAX_FRAME_TIME budget, and returns a snapshot whose fps is
round(1000 / average frame time over the window) — 60 when there are no
samples — whose droppedFrames is the accumulated counter, and whose estimated
memory usage is linear in particleCount (200 bytes per particle). -/
theorem c8_endFrame_metrics (m : PerformanceMonitor) (e : ℚ) (pc : Nat)
    (h : m.frameTimes.length ≤ 60) :
    ((m.endFrame e pc).1.frameTimes.length ≤ 60 ∧
      (m.endFrame e pc).1.frameTimes =
        (m.frameTimes ++ [e]).drop ((m.frameTimes ++ [e]).length - 60)) ∧
    (m.endFrame e pc).1.droppedFrames =
      m.droppedFrames + (if 16 < e then 1 else 0) ∧
    (m.endFrame e pc).2.droppedFrames = (m.endFrame e pc).1.droppedFrames ∧
    (0 < (m.endFrame e pc).1.getAverageFrameTime →
      (m.endFrame e pc).2.fps =
        round (1000 / (m.endFrame e pc).1.getAverageFrameTime)) ∧
    (m.endFrame e pc).2.memoryUsage = pc * 200 ∧
    ∀ pc' : Nat, (PerformanceMonitor.new.getMetrics pc' none).fps = 60 := by
  refine ⟨⟨?_, ?_⟩, ?_, ?_, ?_, ?_, ?_⟩
  · simp only [PerformanceMonitor.endFrame, maxSamples]
    split
    · next hlen =>
        simp only [List.length_tail, List.length_append, List.length_singleton]
        omega
    · next hlen =>
        simp only [List.length_append, List.length_singleton] at *
        omega
  · simp only [PerformanceMonitor.endFrame, maxSamples]
    have hlen : (m.frameTimes ++ [e]).length = m.frameTimes.length + 1 := by simp
    split
    · next hgt =>
        have : (m.frameTimes ++ [e]).length - 60 = 1 := by omega
        rw [this]
        cases hmt : m.frameTimes ++ [e] with
        | nil => simp at hmt
        | cons a l => simp
    · next hle =>
        have : (m.frameTimes ++ [e]).length - 60 = 0 := by omega
        rw [this, List.drop_zero]
  · simp only [PerformanceMonitor.endFrame, PerformanceBudget.MAX_FRAME_TIME,
      PERFORMANCE_BUDGET]
    split <;> simp_all
  · simp [PerformanceMonitor.endFrame, PerformanceMonitor.getMetrics]
  · intro hpos
    simp only [PerformanceMonitor.endFrame, PerformanceMonitor.getMetrics] at *
    rw [if_pos hpos]
  · simp [PerformanceMonitor.endFrame, PerformanceMonitor.getMetrics,
      estimateMemoryUsage]
  · intro pc'
    have havg : PerformanceMonitor.new.getAverageFrameTime = 0 := by
      simp [PerformanceMonitor.getAverageFrameTime, PerformanceMonitor.new]
    simp [PerformanceMonitor.getMetrics, havg]

/-- Witness for C8 at a concrete monitor: window [10], elapsed 18 (a dropped
frame), 3 particles.  The new window is [10, 18], the dropped counter reaches
1, fps = round(1000/14) = 71, memory = 600, and the empty monitor reports
fps 60. -/
theorem c8_endFrame_metrics_witness :
    ((PerformanceMonitor.endFrame ⟨[10], 1, 0⟩ 18 3).1.frameTimes.length ≤ 60 ∧
      (PerformanceMonitor.endFrame ⟨[10], 1, 0⟩ 18 3).1.frameTimes =
        (([10] : List ℚ) ++ [18]).drop ((([10] : List ℚ) ++ [18]).length - 60)) ∧
    (PerformanceMonitor.endFrame ⟨[10], 1, 0⟩ 18 3).1.droppedFrames =
      0 + (if (16 : ℚ) < 18 then 1 else 0) ∧
    (PerformanceMonitor.endFrame ⟨[10], 1, 0⟩ 18 3).2.droppedFrames =
      (PerformanceMonitor.endFrame ⟨[10], 1, 0⟩ 18 3).1.droppedFrames ∧
    (PerformanceMonitor.endFrame ⟨[10], 1, 0⟩ 18 3).2.fps =
      round ((1000 : ℚ) / (PerformanceMonitor.endFrame ⟨[10], 1, 0⟩ 18 3).1.getAverageFrameTime) ∧
    (PerformanceMonitor.endFrame ⟨[10], 1, 0⟩ 18 3).2.memoryUsage = 3 * 200 ∧
    (PerformanceMonitor.new.getMetrics 5 none).fps = 60 := by
  have h := c8_endFrame_metrics ⟨[10], 1, 0⟩ 18 3 (by simp)
  refine ⟨h.1, h.2.1, h.2.2.1, ?_, h.2.2.2.2.1, h.2.2.2.2.2 5⟩
  exact h.2.2.2.1 (by
    simp [PerformanceMonitor.endFrame, PerformanceMonitor.getAverageFrameTime,
      maxSamples, PERFORMANCE_BUDGET]
    norm_num)

/-- C9 (code bug exhibit): when the 2D context cannot be obtained, init throws
with no surface attached and no tick loop started — but it has already
assigned this.canvas, so a second init call made once the context is available
hits the "already initialized" guard, warns and no-ops: the engine never gets
a surface or a tick loop, contradicting the contract that a failed init leaves
the engine uninitialized and correctable. -/
theorem c9_init_failure_blocks_retry :
    (ParticleEngine.init engineUninit false).2 = InitOutcome.threw ∧
    (ParticleEngine.init engineUninit false).1.attached = false ∧
    (ParticleEngine.init engineUninit false).1.loopRunning = false ∧
    (ParticleEngine.init engineUninit false).1.canvasSet = true ∧
    (ParticleEngine.init (ParticleEngine.init engineUninit false).1 true).2 =
      InitOutcome.alreadyWarned ∧
    (ParticleEngine.init (ParticleEngine.init engineUninit false).1 true).1.attached = false ∧
    (ParticleEngine.init (ParticleEngine.init engineUninit false).1 true).1.loopRunning = false := by
  decide

lemma forEachLive_sections (body : List (Nat × PEntry) → Nat → List (Nat × PEntry))
    (t1 t2 : List (Nat × PEntry)) (fuel : Nat)
    (hbody : ∀ t k, body t k = t)
    (hnd : (keys (t1 ++ t2)).Nodup) (hfuel : t2.length ≤ fuel) :
    forEachLive body fuel (t1 ++ t2) (keys t1) = (t1 ++ t2, keys (t1 ++ t2)) := by
  induction t2 generalizing t1 fuel with
  | nil =>
      simp only [List.append_nil]
      have hf : List.find? (fun kv => decide (kv.1 ∉ keys t1)) t1 = none := by
        apply List.find?_eq_none.mpr
        intro x hx
        simp only [decide_eq_true_eq, not_not]
        exact List.mem_map_of_mem Prod.fst hx
      have hnone : firstUnvisited t1 (keys t1) = none := by
        rw [firstUnvisited, hf]
        rfl
      cases fuel with
      | zero => rfl
      | succ n =>
          show (match firstUnvisited t1 (keys t1) with
            | none => (t1, keys t1)
            | some k => forEachLive body n (body t1 k) (keys t1 ++ [k])) = (t1, keys t1)
          rw [hnone]
  | cons kv rest ih =>
      cases fuel with
      | zero => simp at hfuel
      | succ n =>
          have hnd1 : (keys ((t1 ++ [kv]) ++ rest)).Nodup := by
            simpa [List.append_assoc] using hnd
          have hkv1 : kv.1 ∉ keys t1 := by
            simp only [keys, List.map_append, List.map_cons, List.nodup_append] at hnd
            intro hmem
            exact hnd.2.2 hmem (List.mem_cons_self kv.1 _)
          have hfind : firstUnvisited (t1 ++ kv :: rest) (keys t1) = some kv.1 := by
            simp only [firstUnvisited]
            rw [List.find?_append]
            have h1 : List.find? (fun x => decide (x.1 ∉ keys t1)) t1 = none := by
              apply List.find?_eq_none.mpr
              intro x hx
              simp only [decide_eq_true_eq, not_not]
              exact List.mem_map_of_mem Prod.fst hx
            rw [h1]
            simp [List.find?_cons, hkv1]
          show (match firstUnvisited (t1 ++ kv :: rest) (keys t1) with
            | none => (t1 ++ kv :: rest, keys t1)
            | some k => forEachLive body n (body (t1 ++ kv :: rest) k) (keys t1 ++ [k])) =
              (t1 ++ kv :: rest, keys (t1 ++ kv :: rest))
          rw [hfind]
          show forEachLive body n (body (t1 ++ kv :: rest) kv.1) (keys t1 ++ [kv.1]) =
            (t1 ++ kv :: rest, keys (t1 ++ kv :: rest))
          rw [hbody]
          have hkeys : keys t1 ++ [kv.1] = keys (t1 ++ [kv]) := by simp [keys]
          have hsplit : t1 ++ kv :: rest = (t1 ++ [kv]) ++ rest := by simp
          rw [hkeys, hsplit]
          exact ih (t1 ++ [kv]) n hnd1 (by simpa using Nat.le_of_succ_le_succ hfuel)

/-- C2 (amended): when no re-entrant mutation happens inside the update hooks
(removal requested by update returning false only queues into toRemove, which
is processed after the iteration), the frame's iteration visits exactly the
keys of the particle table as it stood when the pass began. -/
theorem c2_live_iteration (t : List (Nat × PEntry)) (fuel : Nat)
    (hnd : (keys t).Nodup) (hfuel : t.length ≤ fuel) :
    forEachLive inertBody fuel t [] = (t, keys t) := by
  have h := forEachLive_sections inertBody [] t fuel (fun _ _ => rfl)
    (by simpa using hnd) (by simpa using hfuel)
  simpa [keys] using h

/-- Witness for C2 (amended) on a concrete two-entry table. -/
theorem c2_live_iteration_witness :
    forEachLive inertBody 2 [(0, c2Entry), (7, c2Entry)] [] =
      ([(0, c2Entry), (7, c2Entry)], [0, 7]) :=
  c2_live_iteration [(0, c2Entry), (7, c2Entry)] 2 (by decide) (by decide)

/-- C2 (counterexample): the claim says the update/render phase iterates a
stable pre-computed snapshot of the particle table, so that particles added by
re-entrant calls from within the tick are not visited by the current frame's
iteration.  On the table holding exactly particle 0, the snapshot's visit list
is [0]; but with the update hook of particle 0 re-entrantly starting an effect
that spawns particle 1, the live Map.forEach iteration of the code visits
[0, 1]: the particle added mid-frame IS visited by the current frame. -/
theorem c2_snapshot_counterexample :
    (forEachLive reentrantBody 3 [(0, c2Entry)] []).2 = [0, 1] ∧
    keys [(0, c2Entry)] = [0] := by
  constructor
  · rfl
  · rfl

/-! ### Well-formedness: preservation by every operation -/

lemma WF_core (s t : EngineState) (hwf : WF s)
    (hp : t.particles = s.particles) (ha : t.activeEffects = s.activeEffects)
    (hpo : t.pool = s.pool) (hc : t.particleIdCounter = s.particleIdCounter) :
    WF t := by
  obtain ⟨h1, h2, h3, h4, h5, h6, h7, h8⟩ := hwf
  exact ⟨hp ▸ h1, ha ▸ h2, ha ▸ h3, by rw [hp, ha]; exact h4,
    by rw [hp, ha]; exact h5, by rw [hp, hc]; exact h6,
    by rw [hp, hpo]; exact h7, by rw [hp, ha]; exact h8⟩

lemma WF_initialState (canvas : Canvas) (prm : Bool) :
    WF (initialState canvas prm) := by
  refine ⟨?_, ?_, ?_, ?_, ?_, ?_, ?_, ?_⟩ <;>
    simp [initialState, keys, ParticlePool.new, ParticlePool.prewarm]

lemma WF_particles_map (s : EngineState) (hwf : WF s)
    (g : Nat × PEntry → Nat × PEntry)
    (hg : ∀ kv, (g kv).1 = kv.1 ∧ (g kv).2.effectId = kv.2.effectId) :
    WF { s with particles := s.particles.map g } := by
  obtain ⟨h1, h2, h3, h4, h5, h6, h7, h8⟩ := hwf
  have hkeys : keys (s.particles.map g) = keys s.particles := by
    simp only [keys, List.map_map]
    congr 1
    funext kv
    exact (hg kv).1
  refine ⟨?_, h2, h3, ?_, ?_, ?_, ?_, ?_⟩
  · show (keys (s.particles.map g)).Nodup
    rw [hkeys]
    exact h1
  · intro kv hkv pid hpid
    obtain ⟨e, he, heid⟩ := h4 kv hkv pid hpid
    refine ⟨(g (pid, e)).2, ?_, ?_⟩
    · have hpe : g (pid, e) = (pid, (g (pid, e)).2) :=
        Prod.ext_iff.mpr ⟨(hg (pid, e)).1, rfl⟩
      rw [← hpe]
      exact List.mem_map_of_mem g he
    · rw [(hg (pid, e)).2]
      exact heid
  · intro pe hpe
    obtain ⟨pe0, hpe0, hge⟩ := List.mem_map.mp hpe
    obtain ⟨kv, hkv, hk1, hk2⟩ := h5 pe0 hpe0
    refine ⟨kv, hkv, ?_, ?_⟩
    · rw [hk1, ← hge, (hg pe0).2]
    · rw [← hge, (hg pe0).1]
      exact hk2
  · intro pe hpe
    obtain ⟨pe0, hpe0, hge⟩ := List.mem_map.mp hpe
    show pe.1 < s.particleIdCounter
    rw [← hge, (hg pe0).1]
    exact h6 pe0 hpe0
  · show s.pool.activeCount = (s.particles.map g).length
    rw [List.length_map]
    exact h7
  · show _ = (s.particles.map g).length
    rw [List.length_map]
    exact h8

lemma WF_adjust_pids_preserving (s : EngineState) (hwf : WF s) (k : String)
    (f : ActiveEffect → ActiveEffect)
    (hf : ∀ v, (f v).particleIds = v.particleIds) :
    WF { s with activeEffects := mapAdjust s.activeEffects k f } := by
  obtain ⟨h1, h2, h3, h4, h5, h6, h7, h8⟩ := hwf
  refine ⟨h1, ?_, ?_, ?_, ?_, h6, h7, ?_⟩
  · show (keys (mapAdjust s.activeEffects k f)).Nodup
    rw [keys_mapAdjust]
    exact h2
  · intro kv hkv
    rcases mem_mapAdjust_of_mem _ _ _ _ hkv with ⟨v0, hv0, heq⟩ | ⟨hm, _⟩
    · rw [heq]
      show (f v0).particleIds.Nodup
      rw [hf v0]
      exact h3 (k, v0) hv0
    · exact h3 kv hm
  · intro kv hkv pid hpid
    rcases mem_mapAdjust_of_mem _ _ _ _ hkv with ⟨v0, hv0, heq⟩ | ⟨hm, _⟩
    · have hpid0 : pid ∈ v0.particleIds := by
        rw [heq] at hpid
        show pid ∈ _
        rw [← hf v0]
        exact hpid
      obtain ⟨e, he, heid⟩ := h4 (k, v0) hv0 pid hpid0
      exact ⟨e, he, by rw [heq]; exact heid⟩
    · exact h4 kv hm pid hpid
  · intro pe hpe
    obtain ⟨kv, hkv, hk1, hk2⟩ := h5 pe hpe
    by_cases hne : kv.1 = k
    · obtain ⟨a, b⟩ := kv
      have ha : a = k := hne
      subst ha
      refine ⟨(a, f b), mem_mapAdjust_self _ _ _ _ hkv, hk1, ?_⟩
      show pe.1 ∈ (f b).particleIds
      rw [hf b]
      exact hk2
    · exact ⟨kv, mem_mapAdjust_of_ne _ _ _ _ hkv hne, hk1, hk2⟩
  · show ((mapAdjust s.activeEffects k f).map fun kv => kv.2.particleIds.length).sum = _
    have : ((mapAdjust s.activeEffects k f).map fun kv => kv.2.particleIds.length) =
        (s.activeEffects.map fun kv => kv.2.particleIds.length) := by
      simp only [mapAdjust, List.map_map]
      congr 1
      funext kv
      by_cases hne : kv.1 = k <;> simp [hne, hf]
    rw [this]
    exact h8

lemma WF_spawn_success (s : EngineState) (eid : String) (ae : ActiveEffect)
    (p : Particle) (hwf : WF s) (hae : mapLookup s.activeEffects eid = some ae) :
    WF { s with
      pool := (s.pool.acquire).2
      particles := mapSet s.particles s.particleIdCounter
        { particle := p, effectId := eid }
      activeEffects := mapAdjust s.activeEffects eid
        (fun a0 => { a0 with particleIds := setAdd a0.particleIds s.particleIdCounter })
      particleIdCounter := s.particleIdCounter + 1 } := by
  obtain ⟨h1, h2, h3, h4, h5, h6, h7, h8⟩ := hwf
  have hfresh : s.particleIdCounter ∉ keys s.particles := by
    intro hmem
    obtain ⟨v, hv⟩ := mem_keys_lookup _ _ hmem
    have := h6 (s.particleIdCounter, v) (mapLookup_mem _ _ _ hv)
    omega
  have hnone : mapLookup s.particles s.particleIdCounter = none :=
    (mapLookup_eq_none_iff _ _).mpr hfresh
  have happend : mapSet s.particles s.particleIdCounter
      { particle := p, effectId := eid } =
      s.particles ++ [(s.particleIdCounter, { particle := p, effectId := eid })] :=
    mapSet_eq_append _ _ _ hnone
  have haemem : (eid, ae) ∈ s.activeEffects := mapLookup_mem _ _ _ hae
  have hnotowned : ∀ kv ∈ s.activeEffects, s.particleIdCounter ∉ kv.2.particleIds := by
    intro kv hkv hmem
    obtain ⟨e, he, _⟩ := h4 kv hkv _ hmem
    have := h6 _ he
    omega
  have hA : (keys (mapSet s.particles s.particleIdCounter
      { particle := p, effectId := eid })).Nodup := by
    rw [happend]
    simp only [keys, List.map_append, List.map_cons, List.map_nil]
    rw [List.nodup_append]
    refine ⟨h1, List.nodup_singleton _, ?_⟩
    intro a ha hb
    simp only [List.mem_singleton] at hb
    subst hb
    exact hfresh ha
  have hB : (keys (mapAdjust s.activeEffects eid
      (fun a0 => { a0 with
        particleIds := setAdd a0.particleIds s.particleIdCounter }))).Nodup := by
    rw [keys_mapAdjust]
    exact h2
  have hC : ∀ kv ∈ mapAdjust s.activeEffects eid
      (fun a0 => { a0 with
        particleIds := setAdd a0.particleIds s.particleIdCounter }),
      kv.2.particleIds.Nodup := by
    intro kv hkv
    rcases mem_mapAdjust_of_mem _ _ _ _ hkv with ⟨v0, hv0, heq⟩ | ⟨hm, _⟩
    · rw [heq]
      exact nodup_setAdd _ _ (h3 (eid, v0) hv0)
    · exact h3 kv hm
  have hD : ∀ kv ∈ mapAdjust s.activeEffects eid
      (fun a0 => { a0 with
        particleIds := setAdd a0.particleIds s.particleIdCounter }),
      ∀ pid ∈ kv.2.particleIds,
      ∃ e, (pid, e) ∈ mapSet s.particles s.particleIdCounter
        { particle := p, effectId := eid } ∧ e.effectId = kv.1 := by
    intro kv hkv pid hpid
    rcases mem_mapAdjust_of_mem _ _ _ _ hkv with ⟨v0, hv0, heq⟩ | ⟨hm, _⟩
    · have hpid2 : pid ∈ setAdd v0.particleIds s.particleIdCounter := by
        rw [heq] at hpid
        exact hpid
      rcases (mem_setAdd_iff _ _ _).mp hpid2 with hold | hnew
      · obtain ⟨e, he, heid⟩ := h4 (eid, v0) hv0 pid hold
        refine ⟨e, ?_, ?_⟩
        · rw [happend]
          exact List.mem_append_left _ he
        · rw [heq]
          exact heid
      · subst hnew
        refine ⟨{ particle := p, effectId := eid }, ?_, ?_⟩
        · rw [happend]
          exact List.mem_append_right _ (List.mem_singleton.mpr rfl)
        · rw [heq]
    · obtain ⟨e, he, heid⟩ := h4 kv hm pid hpid
      refine ⟨e, ?_, heid⟩
      rw [happend]
      exact List.mem_append_left _ he
  have hE : ∀ pe ∈ mapSet s.particles s.particleIdCounter
      { particle := p, effectId := eid },
      ∃ kv ∈ mapAdjust s.activeEffects eid
        (fun a0 => { a0 with
          particleIds := setAdd a0.particleIds s.particleIdCounter }),
        kv.1 = pe.2.effectId ∧ pe.1 ∈ kv.2.particleIds := by
    intro pe hpe
    rw [happend] at hpe
    rcases List.mem_append.mp hpe with hold | hnew
    · obtain ⟨kv, hkv, hk1, hk2⟩ := h5 pe hold
      by_cases hne : kv.1 = eid
      · have hkv2 : kv.2 = ae := by
          have hmem2 : (eid, kv.2) ∈ s.activeEffects := by
            obtain ⟨a, b⟩ := kv
            have ha : a = eid := hne
            subst ha
            exact hkv
          exact unique_value _ _ _ _ h2 hmem2 haemem
        refine ⟨(eid, { ae with
          particleIds := setAdd ae.particleIds s.particleIdCounter }),
          mem_mapAdjust_self _ _ _ _ haemem, ?_, ?_⟩
        · rw [← hne]
          exact hk1
        · show pe.1 ∈ setAdd ae.particleIds s.particleIdCounter
          apply (mem_setAdd_iff _ _ _).mpr
          left
          rw [← hkv2]
          exact hk2
      · exact ⟨kv, mem_mapAdjust_of_ne _ _ _ _ hkv hne, hk1, hk2⟩
    · rw [List.mem_singleton] at hnew
      subst hnew
      refine ⟨(eid, { ae with
        particleIds := setAdd ae.particleIds s.particleIdCounter }),
        mem_mapAdjust_self _ _ _ _ haemem, rfl, ?_⟩
      show s.particleIdCounter ∈ setAdd ae.particleIds s.particleIdCounter
      exact (mem_setAdd_iff _ _ _).mpr (Or.inr rfl)
  have hF : ∀ pe ∈ mapSet s.particles s.particleIdCounter
      { particle := p, effectId := eid }, pe.1 < s.particleIdCounter + 1 := by
    intro pe hpe
    rw [happend] at hpe
    rcases List.mem_append.mp hpe with hold | hnew
    · have := h6 pe hold
      omega
    · rw [List.mem_singleton] at hnew
      subst hnew
      omega
  have hG : (s.pool.acquire).2.activeCount =
      (mapSet s.particles s.particleIdCounter
        { particle := p, effectId := eid }).length := by
    rw [acquire_activeCount, happend, List.length_append]
    simp only [List.length_singleton]
    omega
  have hH : ((mapAdjust s.activeEffects eid
      (fun a0 => { a0 with
        particleIds := setAdd a0.particleIds s.particleIdCounter })).map
          fun kv => kv.2.particleIds.length).sum =
      (mapSet s.particles s.particleIdCounter
        { particle := p, effectId := eid }).length := by
    have hsum := sum_mapAdjust (fun a0 => a0.particleIds.length) s.activeEffects eid
      (fun a0 => { a0 with particleIds := setAdd a0.particleIds s.particleIdCounter })
      ae h2 hae
    have hlen : (setAdd ae.particleIds s.particleIdCounter).length =
        ae.particleIds.length + 1 := by
      rw [setAdd_of_not_mem _ _ (hnotowned (eid, ae) haemem)]
      simp
    rw [happend, List.length_append]
    simp only [List.length_singleton]
    simp only [hlen] at hsum
    omega
  exact ⟨hA, hB, hC, hD, hE, hF, hG, hH⟩

lemma WF_spawnPFE (s : EngineState) (eid : String) (hwf : WF s) :
    WF (spawnParticleForEffect s eid).1 := by
  unfold spawnParticleForEffect
  split
  · exact hwf
  · split
    · exact hwf
    · next ae hae =>
        split
        · exact hwf
        · exact WF_spawn_success s eid ae _ hwf hae

lemma WF_spawnLoop (eid : String) (n : Nat) (s : EngineState) (hwf : WF s) :
    WF (spawnLoop eid n s) := by
  induction n generalizing s with
  | zero => exact hwf
  | succ m ih => exact ih _ (WF_spawnPFE s eid hwf)

lemma WF_insert_session (s : EngineState) (fid : String) (ae : ActiveEffect)
    (hwf : WF s) (hfresh : mapLookup s.activeEffects fid = none)
    (hempty : ae.particleIds = []) :
    WF { s with activeEffects := mapSet s.activeEffects fid ae } := by
  obtain ⟨h1, h2, h3, h4, h5, h6, h7, h8⟩ := hwf
  have hnk : fid ∉ keys s.activeEffects := (mapLookup_eq_none_iff _ _).mp hfresh
  have hap : mapSet s.activeEffects fid ae = s.activeEffects ++ [(fid, ae)] :=
    mapSet_eq_append _ _ _ hfresh
  have hB : (keys (mapSet s.activeEffects fid ae)).Nodup := by
    rw [hap]
    simp only [keys, List.map_append, List.map_cons, List.map_nil]
    rw [List.nodup_append]
    refine ⟨h2, List.nodup_singleton _, ?_⟩
    intro a ha hb
    simp only [List.mem_singleton] at hb
    subst hb
    exact hnk ha
  have hC : ∀ kv ∈ mapSet s.activeEffects fid ae, kv.2.particleIds.Nodup := by
    intro kv hkv
    rw [hap] at hkv
    rcases List.mem_append.mp hkv with hm | hm
    · exact h3 kv hm
    · rw [List.mem_singleton] at hm
      subst hm
      rw [hempty]
      exact List.nodup_nil
  have hD : ∀ kv ∈ mapSet s.activeEffects fid ae, ∀ pid ∈ kv.2.particleIds,
      ∃ e, (pid, e) ∈ s.particles ∧ e.effectId = kv.1 := by
    intro kv hkv pid hpid
    rw [hap] at hkv
    rcases List.mem_append.mp hkv with hm | hm
    · exact h4 kv hm pid hpid
    · rw [List.mem_singleton] at hm
      subst hm
      rw [hempty] at hpid
      simp at hpid
  have hE : ∀ pe ∈ s.particles, ∃ kv ∈ mapSet s.activeEffects fid ae,
      kv.1 = pe.2.effectId ∧ pe.1 ∈ kv.2.particleIds := by
    intro pe hpe
    obtain ⟨kv, hkv, hk1, hk2⟩ := h5 pe hpe
    refine ⟨kv, ?_, hk1, hk2⟩
    rw [hap]
    exact List.mem_append_left _ hkv
  have hH : ((mapSet s.activeEffects fid ae).map
      fun kv => kv.2.particleIds.length).sum = s.particles.length := by
    rw [hap]
    simp only [List.map_append, List.map_cons, List.map_nil, List.sum_append,
      List.sum_cons, List.sum_nil, hempty, List.length_nil]
    omega
  exact ⟨h1, hB, hC, hD, hE, h6, h7, hH⟩

lemma WF_start (s : EngineState) (ty : String) (opts : EffectOptions)
    (fid : String) (now : ℚ) (hwf : WF s)
    (hfresh : mapLookup s.activeEffects fid = none) :
    WF (ParticleEngine.start s ty opts fid now).1 := by
  unfold ParticleEngine.start
  split
  · exact hwf
  · split
    · exact hwf
    · next renderer hr =>
        have hwf1 : WF { s with
            activeEffects := mapSet s.activeEffects fid
              { instanceId := fid, etype := ty, renderer := renderer,
                options := opts, particleIds := [], lastSpawnTime := now } } :=
          WF_insert_session s fid _ hwf hfresh rfl
        exact WF_core _ _
          (WF_spawnLoop fid (renderer.getMaxParticles opts / 2) _ hwf1) rfl rfl rfl rfl

lemma stopLoop_facts (pids : List Nat) (s : EngineState)
    (hnd : pids.Nodup)
    (hknd : (keys s.particles).Nodup)
    (hmem : ∀ pid ∈ pids, ∃ e, (pid, e) ∈ s.particles)
    (hcount : s.pool.activeCount = s.particles.length) :
    (pids.foldl stopRelease s).particles.length + pids.length =
        s.particles.length ∧
    (pids.foldl stopRelease s).pool.activeCount =
        (pids.foldl stopRelease s).particles.length ∧
    (∀ pid ∈ pids, mapLookup (pids.foldl stopRelease s).particles pid = none) ∧
    (∀ k, k ∉ pids →
        mapLookup (pids.foldl stopRelease s).particles k = mapLookup s.particles k) ∧
    (pids.foldl stopRelease s).particles.Sublist s.particles ∧
    (pids.foldl stopRelease s).activeEffects = s.activeEffects ∧
    (pids.foldl stopRelease s).particleIdCounter = s.particleIdCounter ∧
    (pids.foldl stopRelease s).events = s.events := by
  induction pids generalizing s with
  | nil =>
      refine ⟨by simp, hcount, by simp, fun k _ => rfl, List.Sublist.refl _,
        rfl, rfl, rfl⟩
  | cons pid rest ih =>
      obtain ⟨e, he⟩ := hmem pid (List.mem_cons_self _ _)
      have hlk : mapLookup s.particles pid = some e := mem_mapLookup _ _ _ hknd he
      have hstep : stopRelease s pid =
          { s with pool := s.pool.release e.particle
                   particles := mapDelete s.particles pid } := by
        unfold stopRelease
        rw [hlk]
      have hpos : (0 : Int) < s.particles.length := by
        have : 0 < s.particles.length := List.length_pos.mpr (by
          intro hnil
          rw [hnil] at he
          simp at he)
        exact_mod_cast this
      have hlen : (mapDelete s.particles pid).length + 1 = s.particles.length :=
        length_mapDelete_of_some _ _ _ hlk
      have hcount2 : (s.pool.release e.particle).activeCount =
          ((mapDelete s.particles pid).length : Int) := by
        rw [release_activeCount_of_pos _ _ (by omega)]
        rw [hcount]
        have := hlen
        push_cast
        omega
      have hknd2 : (keys (mapDelete s.particles pid)).Nodup :=
        keys_mapDelete_nodup _ _ hknd
      have hnd2 : rest.Nodup := (List.nodup_cons.mp hnd).2
      have hpidrest : pid ∉ rest := (List.nodup_cons.mp hnd).1
      have hmem2 : ∀ q ∈ rest, ∃ e2, (q, e2) ∈ mapDelete s.particles pid := by
        intro q hq
        obtain ⟨e2, he2⟩ := hmem q (List.mem_cons_of_mem _ hq)
        refine ⟨e2, mem_mapDelete_of_key_ne _ _ _ he2 ?_⟩
        show q ≠ pid
        intro hqe
        subst hqe
        exact hpidrest hq
      rw [List.foldl_cons, hstep]
      have ihr := ih { s with pool := s.pool.release e.particle
                              particles := mapDelete s.particles pid }
        hnd2 hknd2 hmem2 hcount2
      dsimp only at ihr
      obtain ⟨i1, i2, i3, i4, i5, i6, i7, i8⟩ := ihr
      refine ⟨?_, i2, ?_, ?_, i5.trans (mapDelete_sublist _ _), i6, i7, i8⟩
      · simp only [List.length_cons]
        omega
      · intro q hq
        rcases List.mem_cons.mp hq with hqe | hqr
        · subst hqe
          rw [i4 q hpidrest]
          exact mapLookup_mapDelete_self _ _ hknd
        · exact i3 q hqr
      · intro k hk
        have hk1 : k ≠ pid := fun he2 => hk (he2 ▸ List.mem_cons_self _ _)
        have hk2 : k ∉ rest := fun hm => hk (List.mem_cons_of_mem _ hm)
        rw [i4 k hk2]
        exact mapLookup_mapDelete_ne _ _ _ hk1

lemma stop_facts (s : EngineState) (instId ty : String) (ae : ActiveEffect)
    (hwf : WF s) (hae : mapLookup s.activeEffects instId = some ae) :
    WF (ParticleEngine.stop s instId ty) ∧
    refsSession (ParticleEngine.stop s instId ty) instId = 0 ∧
    mapLookup (ParticleEngine.stop s instId ty).activeEffects instId = none ∧
    (ParticleEngine.stop s instId ty).pool.activeCount =
      s.pool.activeCount - ae.particleIds.length ∧
    (ParticleEngine.stop s instId ty).events =
      s.events ++ [EngineEvent.stop ty] := by
  obtain ⟨h1, h2, h3, h4, h5, h6, h7, h8⟩ := hwf
  have haemem : (instId, ae) ∈ s.activeEffects := mapLookup_mem _ _ _ hae
  have hnd : ae.particleIds.Nodup := h3 (instId, ae) haemem
  have hmem : ∀ pid ∈ ae.particleIds, ∃ e, (pid, e) ∈ s.particles := by
    intro pid hpid
    obtain ⟨e, he, _⟩ := h4 (instId, ae) haemem pid hpid
    exact ⟨e, he⟩
  obtain ⟨f1, f2, f3, f4, f5, f6, f7, f8⟩ :=
    stopLoop_facts ae.particleIds s hnd h1 hmem h7
  have hstop : ParticleEngine.stop s instId ty =
      emit { ae.particleIds.foldl stopRelease s with
        activeEffects := mapDelete (ae.particleIds.foldl stopRelease s).activeEffects
          instId } (EngineEvent.stop ty) := by
    unfold ParticleEngine.stop
    rw [hae]
  set s1 := ae.particleIds.foldl stopRelease s with hs1
  have hknd1 : (keys s1.particles).Nodup :=
    List.Nodup.sublist (List.Sublist.map Prod.fst f5) h1
  have hnotref : ∀ pe ∈ s1.particles, pe.2.effectId ≠ instId := by
    intro pe hpe heq
    have hpe0 : pe ∈ s.particles := f5.mem hpe
    obtain ⟨kv, hkv, hk1, hk2⟩ := h5 pe hpe0
    have hkv1 : kv.1 = instId := by rw [hk1, heq]
    have hkv2 : kv.2 = ae := by
      apply unique_value s.activeEffects instId _ _ h2 _ haemem
      obtain ⟨a, b⟩ := kv
      have ha : a = instId := hkv1
      subst ha
      exact hkv
    have hnone1 : mapLookup s1.particles pe.1 = none := by
      apply f3
      rw [← hkv2]
      exact hk2
    have hsome1 : mapLookup s1.particles pe.1 = some pe.2 := by
      apply mem_mapLookup _ _ _ hknd1
      obtain ⟨a, b⟩ := pe
      exact hpe
    rw [hnone1] at hsome1
    exact Option.noConfusion hsome1
  rw [hstop]
  refine ⟨?_, ?_, ?_, ?_, ?_⟩
  · have hB : (keys (mapDelete s1.activeEffects instId)).Nodup := by
      apply keys_mapDelete_nodup
      rw [f6]
      exact h2
    have hC : ∀ kv ∈ mapDelete s1.activeEffects instId, kv.2.particleIds.Nodup := by
      intro kv hkv
      apply h3
      rw [← f6]
      exact mem_of_mem_mapDelete _ _ _ hkv
    have hD : ∀ kv ∈ mapDelete s1.activeEffects instId, ∀ pid ∈ kv.2.particleIds,
        ∃ e, (pid, e) ∈ s1.particles ∧ e.effectId = kv.1 := by
      intro kv hkv pid hpid
      have hkvne : kv.1 ≠ instId := by
        apply mem_mapDelete_key_ne s1.activeEffects instId kv _ hkv
        rw [f6]
        exact h2
      have hkvmem : kv ∈ s.activeEffects := by
        rw [← f6]
        exact mem_of_mem_mapDelete _ _ _ hkv
      obtain ⟨e, he, heid⟩ := h4 kv hkvmem pid hpid
      have hpidnot : pid ∉ ae.particleIds := by
        intro hin
        obtain ⟨e2, he2, heid2⟩ := h4 (instId, ae) haemem pid hin
        have : e = e2 := unique_value s.particles pid _ _ h1 he he2
        rw [this] at heid
        rw [heid2] at heid
        exact hkvne heid.symm
      have hlk : mapLookup s1.particles pid = mapLookup s.particles pid :=
        f4 pid hpidnot
      have : mapLookup s.particles pid = some e := mem_mapLookup _ _ _ h1 he
      refine ⟨e, ?_, heid⟩
      apply mapLookup_mem
      rw [hlk]
      exact this
    have hE : ∀ pe ∈ s1.particles, ∃ kv ∈ mapDelete s1.activeEffects instId,
        kv.1 = pe.2.effectId ∧ pe.1 ∈ kv.2.particleIds := by
      intro pe hpe
      obtain ⟨kv, hkv, hk1, hk2⟩ := h5 pe (f5.mem hpe)
      have hkvne : kv.1 ≠ instId := by
        intro heq
        apply hnotref pe hpe
        rw [← hk1, heq]
      refine ⟨kv, ?_, hk1, hk2⟩
      refine mem_mapDelete_of_key_ne _ _ _ ?_ hkvne
      rw [f6]
      exact hkv
    have hF : ∀ pe ∈ s1.particles, pe.1 < s1.particleIdCounter := by
      intro pe hpe
      rw [f7]
      exact h6 pe (f5.mem hpe)
    have hH : ((mapDelete s1.activeEffects instId).map
        fun kv => kv.2.particleIds.length).sum = s1.particles.length := by
      have hs : mapLookup s1.activeEffects instId = some ae := by
        rw [f6]
        exact hae
      have hsum2 := sum_mapDelete (fun a0 => a0.particleIds.length)
        s1.activeEffects instId ae hs
      have hstot : ((s1.activeEffects.map fun kv => kv.2.particleIds.length).sum) =
          s.particles.length := by
        rw [f6]
        exact h8
      simp only at hsum2
      omega
    exact ⟨hknd1, hB, hC, hD, hE, hF, f2, hH⟩
  · show ((emit _ _).particles.filter fun pe => pe.2.effectId = instId).length = 0
    simp only [emit]
    rw [List.length_eq_zero]
    rw [List.filter_eq_nil]
    intro pe hpe
    simp only [decide_eq_true_eq]
    exact hnotref pe hpe
  · show mapLookup (mapDelete s1.activeEffects instId) instId = none
    apply mapLookup_mapDelete_self
    rw [f6]
    exact h2
  · show s1.pool.activeCount = s.pool.activeCount - ae.particleIds.length
    rw [f2, h7]
    have := f1
    push_cast
    omega
  · show s1.events ++ [EngineEvent.stop ty] = s.events ++ [EngineEvent.stop ty]
    rw [f8]

lemma WF_stop (s : EngineState) (instId ty : String) (hwf : WF s) :
    WF (ParticleEngine.stop s instId ty) := by
  cases hae : mapLookup s.activeEffects instId with
  | none =>
      unfold ParticleEngine.stop
      rw [hae]
      exact hwf
  | some ae => exact (stop_facts s instId ty ae hwf hae).1

lemma stopAllInner (pids : List Nat) (t : EngineState)
    (h : ∀ pid ∈ pids, pid ∈ keys t.particles)
    (hc : (pids.length : Int) ≤ t.pool.activeCount) :
    (pids.foldl stopAllRelease t).particles = t.particles ∧
    (pids.foldl stopAllRelease t).activeEffects = t.activeEffects ∧
    (pids.foldl stopAllRelease t).pool.activeCount =
      t.pool.activeCount - pids.length := by
  induction pids generalizing t with
  | nil => exact ⟨rfl, rfl, by simp⟩
  | cons pid rest ih =>
      obtain ⟨v, hv⟩ := mem_keys_lookup _ _ (h pid (List.mem_cons_self _ _))
      have hstep : stopAllRelease t pid =
          { t with pool := t.pool.release v.particle } := by
        unfold stopAllRelease
        rw [hv]
      have hlen : ((pid :: rest).length : Int) = rest.length + 1 := by
        simp
      have hcount : (t.pool.release v.particle).activeCount =
          t.pool.activeCount - 1 := by
        apply release_activeCount_of_pos
        rw [hlen] at hc
        omega
      rw [List.foldl_cons, hstep]
      have ihr := ih { t with pool := t.pool.release v.particle }
        (by intro q hq; exact h q (List.mem_cons_of_mem _ hq))
        (by show (rest.length : Int) ≤ (t.pool.release v.particle).activeCount
            rw [hcount]
            rw [hlen] at hc
            omega)
      dsimp only at ihr
      obtain ⟨i1, i2, i3⟩ := ihr
      refine ⟨i1, i2, ?_⟩
      rw [i3, hcount, hlen]
      omega

lemma stopAllOuter (l : List (String × ActiveEffect)) (t : EngineState)
    (h : ∀ kv ∈ l, ∀ pid ∈ kv.2.particleIds, pid ∈ keys t.particles)
    (hc : (((l.map fun kv => kv.2.particleIds.length).sum : Nat) : Int) ≤
      t.pool.activeCount) :
    (l.foldl (fun acc kv => kv.2.particleIds.foldl stopAllRelease acc) t).particles =
      t.particles ∧
    (l.foldl (fun acc kv => kv.2.particleIds.foldl stopAllRelease acc) t).activeEffects =
      t.activeEffects ∧
    (l.foldl (fun acc kv => kv.2.particleIds.foldl stopAllRelease acc) t).pool.activeCount =
      t.pool.activeCount - (l.map fun kv => kv.2.particleIds.length).sum := by
  induction l generalizing t with
  | nil => exact ⟨rfl, rfl, by simp⟩
  | cons kv rest ih =>
      have hsum : ((kv :: rest).map fun kv => kv.2.particleIds.length).sum =
          kv.2.particleIds.length + (rest.map fun kv => kv.2.particleIds.length).sum := by
        simp
      obtain ⟨j1, j2, j3⟩ := stopAllInner kv.2.particleIds t
        (h kv (List.mem_cons_self _ _))
        (by rw [hsum] at hc; omega)
      rw [List.foldl_cons]
      have ihr := ih (kv.2.particleIds.foldl stopAllRelease t)
        (by intro kv2 hkv2 pid hpid
            rw [j1]
            exact h kv2 (List.mem_cons_of_mem _ hkv2) pid hpid)
        (by rw [j3]; rw [hsum] at hc; omega)
      obtain ⟨i1, i2, i3⟩ := ihr
      refine ⟨by rw [i1, j1], by rw [i2, j2], ?_⟩
      rw [i3, j3, hsum]
      omega

lemma WF_stopAll (s : EngineState) (hwf : WF s) :
    WF (ParticleEngine.stopAll s) := by
  obtain ⟨h1, h2, h3, h4, h5, h6, h7, h8⟩ := hwf
  have houter := stopAllOuter s.activeEffects s
    (by intro kv hkv pid hpid
        obtain ⟨e, he, _⟩ := h4 kv hkv pid hpid
        exact List.mem_map_of_mem Prod.fst he)
    (by rw [h8, h7])
  obtain ⟨o1, o2, o3⟩ := houter
  have hcount0 : (s.activeEffects.foldl
      (fun acc kv => kv.2.particleIds.foldl stopAllRelease acc) s).pool.activeCount = 0 := by
    rw [o3, h7, h8]
    omega
  have hsa : ParticleEngine.stopAll s =
      { s.activeEffects.foldl
          (fun acc kv => kv.2.particleIds.foldl stopAllRelease acc) s with
        particles := [], activeEffects := [] } := rfl
  rw [hsa]
  refine ⟨?_, ?_, ?_, ?_, ?_, ?_, ?_, ?_⟩
  · show (keys ([] : List (Nat × PEntry))).Nodup
    simp [keys]
  · show (keys ([] : List (String × ActiveEffect))).Nodup
    simp [keys]
  · intro kv hkv
    simp at hkv
  · intro kv hkv
    simp at hkv
  · intro pe hpe
    simp at hpe
  · intro pe hpe
    simp at hpe
  · show _ = (([] : List (Nat × PEntry)).length : Int)
    simp only [List.length_nil, Nat.cast_zero]
    exact hcount0
  · simp

lemma WF_setIntensity (s : EngineState) (level : IntensityLevel) (hwf : WF s) :
    WF (ParticleEngine.setIntensity s level) := by
  unfold ParticleEngine.setIntensity
  split
  · exact WF_stopAll _ (WF_core s _ hwf rfl rfl rfl rfl)
  · exact WF_core s _ hwf rfl rfl rfl rfl

lemma WF_onReducedMotionChange (s : EngineState) (b : Bool) (hwf : WF s) :
    WF (onReducedMotionChange s b) := by
  unfold onReducedMotionChange
  split
  · exact WF_stopAll _ (WF_core s _ hwf rfl rfl rfl rfl)
  · exact WF_core s _ hwf rfl rfl rfl rfl

lemma WF_removeStep (s : EngineState) (pid : Nat) (hwf : WF s) :
    WF (removeStep s pid) := by
  obtain ⟨h1, h2, h3, h4, h5, h6, h7, h8⟩ := hwf
  cases hlk : mapLookup s.particles pid with
  | none =>
      unfold removeStep
      rw [hlk]
      exact ⟨h1, h2, h3, h4, h5, h6, h7, h8⟩
  | some entry =>
      have hpe : (pid, entry) ∈ s.particles := mapLookup_mem _ _ _ hlk
      obtain ⟨kv0, hkv0, hk01, hk02⟩ := h5 (pid, entry) hpe
      have hkv0mem : (entry.effectId, kv0.2) ∈ s.activeEffects := by
        obtain ⟨a, b⟩ := kv0
        have ha : a = entry.effectId := hk01
        subst ha
        exact hkv0
      have hkvlk : mapLookup s.activeEffects entry.effectId = some kv0.2 :=
        mem_mapLookup _ _ _ h2 hkv0mem
      have haend : kv0.2.particleIds.Nodup := h3 kv0 hkv0
      have hpidmem : pid ∈ kv0.2.particleIds := hk02
      have hstep : removeStep s pid = { s with
          activeEffects := mapAdjust s.activeEffects entry.effectId
            (fun a0 => { a0 with particleIds := a0.particleIds.erase pid })
          pool := s.pool.release entry.particle
          particles := mapDelete s.particles pid } := by
        unfold removeStep
        simp only [hlk, hkvlk]
      rw [hstep]
      have hA : (keys (mapDelete s.particles pid)).Nodup :=
        keys_mapDelete_nodup _ _ h1
      have hB : (keys (mapAdjust s.activeEffects entry.effectId
          (fun a0 => { a0 with particleIds := a0.particleIds.erase pid }))).Nodup := by
        rw [keys_mapAdjust]
        exact h2
      have hC : ∀ kv ∈ mapAdjust s.activeEffects entry.effectId
          (fun a0 => { a0 with particleIds := a0.particleIds.erase pid }),
          kv.2.particleIds.Nodup := by
        intro kv hkv
        rcases mem_mapAdjust_of_mem _ _ _ _ hkv with ⟨v0, hv0, heq⟩ | ⟨hm, _⟩
        · rw [heq]
          exact List.Nodup.erase pid (h3 (entry.effectId, v0) hv0)
        · exact h3 kv hm
      have hD : ∀ kv ∈ mapAdjust s.activeEffects entry.effectId
          (fun a0 => { a0 with particleIds := a0.particleIds.erase pid }),
          ∀ q ∈ kv.2.particleIds,
          ∃ e, (q, e) ∈ mapDelete s.particles pid ∧ e.effectId = kv.1 := by
        intro kv hkv q hq
        rcases mem_mapAdjust_of_mem _ _ _ _ hkv with ⟨v0, hv0, heq⟩ | ⟨hm, hne⟩
        · have hv0ae : v0 = kv0.2 := unique_value _ _ _ _ h2 hv0 hkv0mem
          have hq2 : q ∈ v0.particleIds.erase pid := by
            rw [heq] at hq
            exact hq
          have hqmem : q ∈ v0.particleIds := List.mem_of_mem_erase hq2
          have hqne : q ≠ pid := by
            subst hv0ae
            exact ((List.Nodup.mem_erase_iff haend).mp hq2).1
          obtain ⟨e, he, heid⟩ := h4 (entry.effectId, v0) hv0 q hqmem
          refine ⟨e, mem_mapDelete_of_key_ne _ _ _ he hqne, ?_⟩
          rw [heq]
          exact heid
        · obtain ⟨e, he, heid⟩ := h4 kv hm q hq
          have hqne : q ≠ pid := by
            intro hqe
            subst hqe
            have he2 : e = entry := unique_value _ _ _ _ h1 he hpe
            apply hne
            rw [← heid, he2]
          exact ⟨e, mem_mapDelete_of_key_ne _ _ _ he hqne, heid⟩
      have hE : ∀ pe ∈ mapDelete s.particles pid,
          ∃ kv ∈ mapAdjust s.activeEffects entry.effectId
            (fun a0 => { a0 with particleIds := a0.particleIds.erase pid }),
          kv.1 = pe.2.effectId ∧ pe.1 ∈ kv.2.particleIds := by
        intro pe hpe2
        have hpem : pe ∈ s.particles := mem_of_mem_mapDelete _ _ _ hpe2
        have hpene : pe.1 ≠ pid := mem_mapDelete_key_ne _ _ _ h1 hpe2
        obtain ⟨kv2, hkv2, hk21, hk22⟩ := h5 pe hpem
        by_cases hcase : kv2.1 = entry.effectId
        · have hkv22 : kv2.2 = kv0.2 := by
            apply unique_value _ entry.effectId _ _ h2 _ hkv0mem
            obtain ⟨a, b⟩ := kv2
            have ha : a = entry.effectId := hcase
            subst ha
            exact hkv2
          rw [hkv22] at hk22
          refine ⟨(entry.effectId, { kv0.2 with
            particleIds := kv0.2.particleIds.erase pid }),
            mem_mapAdjust_self _ _ _ _ hkv0mem, ?_, ?_⟩
          · rw [← hcase]
            exact hk21
          · show pe.1 ∈ kv0.2.particleIds.erase pid
            exact (List.mem_erase_of_ne hpene).mpr hk22
        · exact ⟨kv2, mem_mapAdjust_of_ne _ _ _ _ hkv2 hcase, hk21, hk22⟩
      have hF : ∀ pe ∈ mapDelete s.particles pid, pe.1 < s.particleIdCounter :=
        fun pe hpe2 => h6 pe (mem_of_mem_mapDelete _ _ _ hpe2)
      have hlen : (mapDelete s.particles pid).length + 1 = s.particles.length :=
        length_mapDelete_of_some _ _ _ hlk
      have hG : (s.pool.release entry.particle).activeCount =
          ((mapDelete s.particles pid).length : Int) := by
        have hpos : 0 < s.particles.length := List.length_pos.mpr (by
          intro hnil
          rw [hnil] at hpe
          simp at hpe)
        rw [release_activeCount_of_pos _ _ (by rw [h7]; exact_mod_cast hpos), h7]
        omega
      have hH : ((mapAdjust s.activeEffects entry.effectId
          (fun a0 => { a0 with particleIds := a0.particleIds.erase pid })).map
            fun kv => kv.2.particleIds.length).sum =
          (mapDelete s.particles pid).length := by
        have hsum := sum_mapAdjust (fun a0 => a0.particleIds.length)
          s.activeEffects entry.effectId
          (fun a0 => { a0 with particleIds := a0.particleIds.erase pid })
          kv0.2 h2 hkvlk
        have herase : (kv0.2.particleIds.erase pid).length + 1 =
            kv0.2.particleIds.length := by
          have := List.length_erase_of_mem hpidmem
          have hpos : 0 < kv0.2.particleIds.length :=
            List.length_pos.mpr (by
              intro hnil
              rw [hnil] at hpidmem
              simp at hpidmem)
          omega
        simp only at hsum
        omega
      exact ⟨hA, hB, hC, hD, hE, hF, hG, hH⟩

lemma WF_removePhase (toRemove : List Nat) (s : EngineState) (hwf : WF s) :
    WF (removePhase s toRemove) := by
  unfold removePhase
  induction toRemove generalizing s with
  | nil => exact hwf
  | cons p rest ih => exact ih _ (WF_removeStep s p hwf)

lemma WF_spawnPhaseStep (t : ℚ) (s : EngineState) (eid : String) (hwf : WF s) :
    WF (spawnPhaseStep t s eid) := by
  unfold spawnPhaseStep
  split
  · exact hwf
  · dsimp only
    split
    · exact WF_adjust_pids_preserving _ (WF_spawnPFE s eid hwf) eid _ (fun v => rfl)
    · exact hwf

lemma WF_spawnPhase (s : EngineState) (t : ℚ) (hwf : WF s) :
    WF (spawnPhase s t) := by
  unfold spawnPhase
  have : ∀ (ks : List String) (u : EngineState), WF u →
      WF (ks.foldl (spawnPhaseStep t) u) := by
    intro ks
    induction ks with
    | nil => intro u hu; exact hu
    | cons k rest ih => intro u hu; exact ih _ (WF_spawnPhaseStep t u k hu)
  exact this _ s hwf

lemma updatePhase_foldl_fst_eq (s : EngineState) (dn : ℚ)
    (xs : List (Nat × PEntry)) (acc : List (Nat × PEntry) × List Nat) :
    (xs.foldl (updateBody s dn) acc).1 = acc.1 ++ xs.map (fun kv =>
      match mapLookup s.activeEffects kv.2.effectId with
      | none => kv
      | some ae => (kv.1,
          { particle := (ae.renderer.update kv.2.particle dn s.canvas).1,
            effectId := kv.2.effectId })) := by
  induction xs generalizing acc with
  | nil => simp
  | cons kv rest ih =>
      rw [List.foldl_cons, ih]
      have hbody : (updateBody s dn acc kv).1 = acc.1 ++
          [match mapLookup s.activeEffects kv.2.effectId with
           | none => kv
           | some ae => (kv.1,
               { particle := (ae.renderer.update kv.2.particle dn s.canvas).1,
                 effectId := kv.2.effectId })] := by
        unfold updateBody
        cases mapLookup s.activeEffects kv.2.effectId <;> rfl
      rw [List.map_cons, hbody, List.append_assoc]
      rfl

lemma updatePhase_fst_map (s : EngineState) (dn : ℚ) :
    (updatePhase s dn).1 = s.particles.map (fun kv =>
      match mapLookup s.activeEffects kv.2.effectId with
      | none => kv
      | some ae => (kv.1,
          { particle := (ae.renderer.update kv.2.particle dn s.canvas).1,
            effectId := kv.2.effectId })) := by
  unfold updatePhase
  rw [updatePhase_foldl_fst_eq]
  rfl

lemma WF_updateAssign (s : EngineState) (dn : ℚ) (hwf : WF s) :
    WF { s with particles := (updatePhase s dn).1 } := by
  have hg : ∀ kv : Nat × PEntry,
      ((match mapLookup s.activeEffects kv.2.effectId with
        | none => kv
        | some ae => (kv.1,
            { particle := (ae.renderer.update kv.2.particle dn s.canvas).1,
              effectId := kv.2.effectId }) : Nat × PEntry)).1 = kv.1 ∧
      ((match mapLookup s.activeEffects kv.2.effectId with
        | none => kv
        | some ae => (kv.1,
            { particle := (ae.renderer.update kv.2.particle dn s.canvas).1,
              effectId := kv.2.effectId }) : Nat × PEntry)).2.effectId =
        kv.2.effectId := by
    intro kv
    cases mapLookup s.activeEffects kv.2.effectId <;> exact ⟨rfl, rfl⟩
  have h := WF_particles_map s hwf _ hg
  rw [← updatePhase_fst_map] at h
  exact h

lemma WF_renderLoop (s : EngineState) (t fe : ℚ) (hwf : WF s) :
    WF (renderLoop s t fe) := by
  unfold renderLoop
  split
  · exact hwf
  · dsimp only
    have hwf1 : WF { s with lastFrameTime := t } :=
      WF_core s _ hwf rfl rfl rfl rfl
    have hwf2 : WF (spawnPhase { s with lastFrameTime := t } t) :=
      WF_spawnPhase _ t hwf1
    have hwf3 := WF_updateAssign (spawnPhase { s with lastFrameTime := t } t)
      ((min (t - s.lastFrameTime) PERFORMANCE_BUDGET.MAX_DELTA_CLAMP) / 16.67) hwf2
    have hwf4 := WF_removePhase
      ((updatePhase (spawnPhase { s with lastFrameTime := t } t)
        ((min (t - s.lastFrameTime) PERFORMANCE_BUDGET.MAX_DELTA_CLAMP) / 16.67)).2)
      _ hwf3
    split
    · exact WF_setIntensity _ _ (WF_core _ _ hwf4 rfl rfl rfl rfl)
    · exact WF_core _ _ hwf4 rfl rfl rfl rfl

lemma WF_applyOp (s : EngineState) (op : EngineOp) (hwf : WF s)
    (hok : FreshOk s op) : WF (applyOp s op) := by
  cases op with
  | registerEffect ty r => exact WF_core s _ hwf rfl rfl rfl rfl
  | start ty opts fid now => exact WF_start s ty opts fid now hwf hok
  | stop instId ty => exact WF_stop s instId ty hwf
  | stopAll => exact WF_stopAll s hwf
  | setIntensity level => exact WF_setIntensity s level hwf
  | setPaused b => exact WF_core s _ hwf rfl rfl rfl rfl
  | visibilityChange v => exact WF_core s _ hwf rfl rfl rfl rfl
  | reducedMotionChange b => exact WF_onReducedMotionChange s b hwf
  | tick t fe => exact WF_renderLoop s t fe hwf

lemma WF_reachable (s : EngineState) (hr : Reachable s) : WF s := by
  induction hr with
  | init canvas prm => exact WF_initialState canvas prm
  | step s1 op _ hok ih => exact WF_applyOp s1 op ih hok

/-! ### C3: stop is synchronous and complete -/

/-- C3: for every reachable state and every existing session (looked up by its
handle's id) owning n = ae.particleIds.length particles, immediately after
stop(handle) returns — the model's stop is a pure function, so everything it
does is complete synchronously when it returns — zero entries of the global
particle table reference that session's id, the session is removed from the
session map, and the pool's active count has decreased by exactly n. -/
theorem c3_stop_complete (s : EngineState) (instId ty : String)
    (ae : ActiveEffect) (hr : Reachable s)
    (hae : mapLookup s.activeEffects instId = some ae) :
    refsSession (ParticleEngine.stop s instId ty) instId = 0 ∧
    (mapLookup (ParticleEngine.stop s instId ty).activeEffects instId).isNone =
      true ∧
    (ParticleEngine.stop s instId ty).pool.activeCount =
      s.pool.activeCount - ae.particleIds.length := by
  have hwf := WF_reachable s hr
  obtain ⟨_, h2, h3, h4, _⟩ := stop_facts s instId ty ae hwf hae
  exact ⟨h2, by rw [h3]; rfl, h4⟩

/-- Witness for C3: a concrete reachable state (register an effect of
capacity 2, start it — it pre-spawns one particle) on which stop empties the
session's table entries, removes the session, and drops the active count by
exactly 1. -/
theorem c3_stop_complete_witness :
    refsSession (ParticleEngine.stop c3Started "S" "fx") "S" = 0 ∧
    (mapLookup (ParticleEngine.stop c3Started "S" "fx").activeEffects "S").isNone =
      true ∧
    (ParticleEngine.stop c3Started "S" "fx").pool.activeCount =
      c3Started.pool.activeCount - c3AE.particleIds.length := by
  have hr : Reachable c3Started := by
    apply Reachable.step c3Reg (EngineOp.start "fx" {} "S" 0)
    · apply Reachable.step _ (EngineOp.registerEffect "fx" (constRenderer 2))
      · exact Reachable.init _ _
      · exact trivial
    · show mapLookup c3Reg.activeEffects "S" = none
      rfl
  have hae : mapLookup c3Started.activeEffects "S" = some c3AE := rfl
  exact c3_stop_complete c3Started "S" "fx" c3AE hr hae

/-! ### C1: the global particle ceiling -/

lemma MAX_PARTICLES_GLOBAL_eq : PERFORMANCE_BUDGET.MAX_PARTICLES_GLOBAL = 100 := rfl

lemma spawnPFE_refused (s : EngineState) (eid : String)
    (h : PERFORMANCE_BUDGET.MAX_PARTICLES_GLOBAL ≤ s.particles.length) :
    spawnParticleForEffect s eid = (s, false) := by
  unfold spawnParticleForEffect
  rw [if_pos h]

lemma spawnPFE_ceiling (s : EngineState) (eid : String)
    (h : s.particles.length ≤ 100) :
    (spawnParticleForEffect s eid).1.particles.length ≤ 100 := by
  unfold spawnParticleForEffect
  split
  · exact h
  · next h100 =>
      rw [MAX_PARTICLES_GLOBAL_eq] at h100
      split
      · exact h
      · split
        · exact h
        · refine le_trans (length_mapSet_le _ _ _) ?_
          omega

lemma spawnLoop_ceiling (eid : String) (n : Nat) (s : EngineState)
    (h : s.particles.length ≤ 100) :
    (spawnLoop eid n s).particles.length ≤ 100 := by
  induction n generalizing s with
  | zero => exact h
  | succ m ih => exact ih _ (spawnPFE_ceiling s eid h)

lemma start_ceiling (s : EngineState) (ty : String) (opts : EffectOptions)
    (fid : String) (now : ℚ) (h : s.particles.length ≤ 100) :
    (ParticleEngine.start s ty opts fid now).1.particles.length ≤ 100 := by
  unfold ParticleEngine.start
  split
  · exact h
  · split
    · exact h
    · exact spawnLoop_ceiling _ _ _ h

lemma stopRelease_length_le (s : EngineState) (pid : Nat) :
    (stopRelease s pid).particles.length ≤ s.particles.length := by
  unfold stopRelease
  split
  · exact le_refl _
  · exact length_mapDelete_le _ _

lemma stop_ceiling (s : EngineState) (instId ty : String)
    (h : s.particles.length ≤ 100) :
    (ParticleEngine.stop s instId ty).particles.length ≤ 100 := by
  unfold ParticleEngine.stop
  split
  · exact h
  · next ae _ =>
      show (emit _ _).particles.length ≤ 100
      simp only [emit]
      have : ∀ (pids : List Nat) (t : EngineState), t.particles.length ≤ 100 →
          (pids.foldl stopRelease t).particles.length ≤ 100 := by
        intro pids
        induction pids with
        | nil => intro t ht; exact ht
        | cons p rest ih =>
            intro t ht
            exact ih _ (le_trans (stopRelease_length_le t p) ht)
      exact this ae.particleIds s h

lemma stopAll_particles (s : EngineState) :
    (ParticleEngine.stopAll s).particles = [] := rfl

lemma setIntensity_ceiling (s : EngineState) (level : IntensityLevel)
    (h : s.particles.length ≤ 100) :
    (ParticleEngine.setIntensity s level).particles.length ≤ 100 := by
  unfold ParticleEngine.setIntensity
  split
  · rw [stopAll_particles]
    simp
  · exact h

lemma onReducedMotionChange_ceiling (s : EngineState) (b : Bool)
    (h : s.particles.length ≤ 100) :
    (onReducedMotionChange s b).particles.length ≤ 100 := by
  unfold onReducedMotionChange
  split
  · rw [stopAll_particles]
    simp
  · exact h

lemma spawnPhaseStep_ceiling (t : ℚ) (s : EngineState) (eid : String)
    (h : s.particles.length ≤ 100) :
    (spawnPhaseStep t s eid).particles.length ≤ 100 := by
  unfold spawnPhaseStep
  split
  · exact h
  · dsimp only
    split
    · exact spawnPFE_ceiling s eid h
    · exact h

lemma spawnPhase_ceiling (s : EngineState) (t : ℚ)
    (h : s.particles.length ≤ 100) :
    (spawnPhase s t).particles.length ≤ 100 := by
  unfold spawnPhase
  have : ∀ (ks : List String) (u : EngineState), u.particles.length ≤ 100 →
      (ks.foldl (spawnPhaseStep t) u).particles.length ≤ 100 := by
    intro ks
    induction ks with
    | nil => intro u hu; exact hu
    | cons k rest ih => intro u hu; exact ih _ (spawnPhaseStep_ceiling t u k hu)
  exact this _ s h

lemma updateBody_fst_length (s : EngineState) (dn : ℚ)
    (acc : List (Nat × PEntry) × List Nat) (kv : Nat × PEntry) :
    (updateBody s dn acc kv).1.length = acc.1.length + 1 := by
  unfold updateBody
  cases mapLookup s.activeEffects kv.2.effectId <;> simp

lemma updatePhase_foldl_fst_length (s : EngineState) (dn : ℚ)
    (xs : List (Nat × PEntry)) (acc : List (Nat × PEntry) × List Nat) :
    (xs.foldl (updateBody s dn) acc).1.length = acc.1.length + xs.length := by
  induction xs generalizing acc with
  | nil => simp
  | cons kv rest ih =>
      rw [List.foldl_cons, ih]
      rw [updateBody_fst_length]
      simp only [List.length_cons]
      omega

lemma updatePhase_fst_length (s : EngineState) (dn : ℚ) :
    (updatePhase s dn).1.length = s.particles.length := by
  unfold updatePhase
  rw [updatePhase_foldl_fst_length]
  simp

lemma removeStep_length_le (s : EngineState) (pid : Nat) :
    (removeStep s pid).particles.length ≤ s.particles.length := by
  unfold removeStep
  split
  · exact le_refl _
  · next entry _ =>
      cases mapLookup s.activeEffects entry.effectId <;>
        exact length_mapDelete_le _ _

lemma removePhase_ceiling (toRemove : List Nat) (s : EngineState)
    (h : s.particles.length ≤ 100) :
    (removePhase s toRemove).particles.length ≤ 100 := by
  unfold removePhase
  induction toRemove generalizing s with
  | nil => exact h
  | cons p rest ih =>
      exact ih _ (le_trans (removeStep_length_le s p) h)

lemma renderLoop_core_ceiling (s2 : EngineState) (dn : ℚ)
    (h2 : s2.particles.length ≤ 100) :
    (removePhase { s2 with particles := (updatePhase s2 dn).1 }
      (updatePhase s2 dn).2).particles.length ≤ 100 := by
  apply removePhase_ceiling
  show (updatePhase s2 dn).1.length ≤ 100
  rw [updatePhase_fst_length]
  exact h2

lemma renderLoop_ceiling (s : EngineState) (t fe : ℚ)
    (h : s.particles.length ≤ 100) :
    (renderLoop s t fe).particles.length ≤ 100 := by
  unfold renderLoop
  split
  · exact h
  · dsimp only
    split
    · exact setIntensity_ceiling _ _
        (renderLoop_core_ceiling _ _ (spawnPhase_ceiling _ t h))
    · exact renderLoop_core_ceiling _ _ (spawnPhase_ceiling _ t h)

lemma applyOp_ceiling (s : EngineState) (op : EngineOp)
    (h : s.particles.length ≤ 100) :
    (applyOp s op).particles.length ≤ 100 := by
  cases op with
  | registerEffect ty r => exact h
  | start ty opts fid now => exact start_ceiling s ty opts fid now h
  | stop instId ty => exact stop_ceiling s instId ty h
  | stopAll =>
      show (ParticleEngine.stopAll s).particles.length ≤ 100
      rw [stopAll_particles]
      simp
  | setIntensity level => exact setIntensity_ceiling s level h
  | setPaused b => exact h
  | visibilityChange v => exact h
  | reducedMotionChange b => exact onReducedMotionChange_ceiling s b h
  | tick t fe => exact renderLoop_ceiling s t fe h

/-- C1: in every state reachable by any sequence of engine operations (start,
stop, stopAll, setIntensity, pause/visibility/reduced-motion changes, ticks),
the global particle table holds at most MAX_PARTICLES_GLOBAL = 100 live
particles; and a spawn attempted while the table already holds 100 particles
is refused — spawnParticleForEffect returns false and leaves the state
unchanged — regardless of the attempting session's remaining capacity
headroom (the ceiling test precedes the per-session capacity test). -/
theorem c1_global_ceiling :
    (∀ s : EngineState, Reachable s →
      s.particles.length ≤ PERFORMANCE_BUDGET.MAX_PARTICLES_GLOBAL) ∧
    (∀ (s : EngineState) (eid : String),
      PERFORMANCE_BUDGET.MAX_PARTICLES_GLOBAL ≤ s.particles.length →
      spawnParticleForEffect s eid = (s, false)) := by
  constructor
  · intro s hr
    rw [MAX_PARTICLES_GLOBAL_eq]
    induction hr with
    | init canvas prm => simp [initialState]
    | step s1 op _ _ ih => exact applyOp_ceiling s1 op ih
  · exact spawnPFE_refused

/-- Witness for C1: the freshly initialized engine is reachable and within the
ceiling, and on a concrete full table (100 particles, one session with
capacity 1000 and hence ample headroom) the spawn is refused. -/
theorem c1_global_ceiling_witness :
    (initialState { width := 800, height := 600 } false).particles.length ≤
      PERFORMANCE_BUDGET.MAX_PARTICLES_GLOBAL ∧
    spawnParticleForEffect c1FullState "A" = (c1FullState, false) := by
  constructor
  · exact c1_global_ceiling.1 _ (Reachable.init _ _)
  · apply c1_global_ceiling.2
    show PERFORMANCE_BUDGET.MAX_PARTICLES_GLOBAL ≤ c1FullState.particles.length
    rw [MAX_PARTICLES_GLOBAL_eq]
    simp [c1FullState]

/-! ### C7: suppressed and unregistered starts are no-ops -/

/-- C7: for every start(type, options) call, if the reduced-motion preference
is active and the caller has not explicitly overridden it (i.e.
options.disableOnReducedMotion is not literally false), or if the type is not
registered, then the state is returned unchanged — no session is created, no
particle is spawned, the particle table (hence the metrics particle count,
which is its size) is untouched — and the returned handle's stop() is callable
and is a no-op on any state.  Both cases return normally (the unregistered
case logs console.error rather than throwing; start is a total function of
the state). -/
theorem c7_start_noop (s : EngineState) (ty : String) (opts : EffectOptions)
    (fid : String) (now : ℚ)
    (h : (s.prefersReducedMotion = true ∧ opts.disableOnReducedMotion ≠ some false) ∨
      mapLookup s.effects ty = none) :
    ParticleEngine.start s ty opts fid now = (s, createNoOpInstance ty) ∧
    (ParticleEngine.start s ty opts fid now).1.particles = s.particles ∧
    (∀ u : EngineState, stopHandle u (createNoOpInstance ty) = u) := by
  have hmain : ParticleEngine.start s ty opts fid now = (s, createNoOpInstance ty) := by
    unfold ParticleEngine.start
    rcases h with hsup | hreg
    · rw [if_pos hsup]
    · split
      · rfl
      · rw [hreg]
  exact ⟨hmain, by rw [hmain], fun u => rfl⟩

/-- Witness for C7: on a fresh engine whose reduced-motion preference is on,
start returns the unchanged state with a no-op handle whose stop does
nothing. -/
theorem c7_start_noop_witness :
    ParticleEngine.start (initialState { width := 100, height := 100 } true)
      "snow" {} "x" 0 =
      (initialState { width := 100, height := 100 } true,
        createNoOpInstance "snow") ∧
    (ParticleEngine.start (initialState { width := 100, height := 100 } true)
      "snow" {} "x" 0).1.particles =
      (initialState { width := 100, height := 100 } true).particles ∧
    stopHandle (initialState { width := 100, height := 100 } true)
      (createNoOpInstance "snow") =
      initialState { width := 100, height := 100 } true := by
  have h := c7_start_noop (initialState { width := 100, height := 100 } true)
    "snow" {} "x" 0 (Or.inl ⟨rfl, by decide⟩)
  exact ⟨h.1, h.2.1, h.2.2 _⟩

/-! ### C10: the stored global intensity is inert outside setIntensity('off') -/

lemma spawnPFE_gI (s : EngineState) (l : IntensityLevel) (eid : String) :
    spawnParticleForEffect { s with globalIntensity := l } eid =
      ({ (spawnParticleForEffect s eid).1 with globalIntensity := l },
        (spawnParticleForEffect s eid).2) := by
  unfold spawnParticleForEffect
  dsimp only
  by_cases h100 : PERFORMANCE_BUDGET.MAX_PARTICLES_GLOBAL ≤ s.particles.length
  · simp only [if_pos h100]
  · simp only [if_neg h100]
    cases hlk : mapLookup s.activeEffects eid with
    | none => rfl
    | some ae =>
        dsimp only
        by_cases hcap : ae.renderer.getMaxParticles ae.options ≤ ae.particleIds.length
        · simp only [if_pos hcap]
        · simp only [if_neg hcap]

lemma spawnPhaseStep_gI (t : ℚ) (s : EngineState) (l : IntensityLevel)
    (eid : String) :
    spawnPhaseStep t { s with globalIntensity := l } eid =
      { spawnPhaseStep t s eid with globalIntensity := l } := by
  unfold spawnPhaseStep
  dsimp only
  cases hlk : mapLookup s.activeEffects eid with
  | none => rfl
  | some ae =>
      dsimp only
      split
      · rw [spawnPFE_gI]
      · rfl

lemma spawnPhase_foldl_gI (t : ℚ) (ks : List String) (s : EngineState)
    (l : IntensityLevel) :
    ks.foldl (spawnPhaseStep t) { s with globalIntensity := l } =
      { ks.foldl (spawnPhaseStep t) s with globalIntensity := l } := by
  induction ks generalizing s with
  | nil => rfl
  | cons k rest ih =>
      rw [List.foldl_cons, List.foldl_cons, spawnPhaseStep_gI]
      exact ih (spawnPhaseStep t s k)

lemma spawnPhase_gI (s : EngineState) (l : IntensityLevel) (t : ℚ) :
    spawnPhase { s with globalIntensity := l } t =
      { spawnPhase s t with globalIntensity := l } := by
  unfold spawnPhase
  exact spawnPhase_foldl_gI t (keys s.activeEffects) s l

lemma updatePhase_gI (s : EngineState) (l : IntensityLevel) (dn : ℚ) :
    updatePhase { s with globalIntensity := l } dn = updatePhase s dn := rfl

lemma removeStep_gI (s : EngineState) (l : IntensityLevel) (pid : Nat) :
    removeStep { s with globalIntensity := l } pid =
      { removeStep s pid with globalIntensity := l } := by
  unfold removeStep
  dsimp only
  cases hlk : mapLookup s.particles pid with
  | none => rfl
  | some entry =>
      dsimp only
      cases hae : mapLookup s.activeEffects entry.effectId with
      | none => rfl
      | some ae => rfl

lemma removePhase_gI (toRemove : List Nat) (s : EngineState) (l : IntensityLevel) :
    removePhase { s with globalIntensity := l } toRemove =
      { removePhase s toRemove with globalIntensity := l } := by
  unfold removePhase
  induction toRemove generalizing s with
  | nil => rfl
  | cons p rest ih =>
      rw [List.foldl_cons, List.foldl_cons, removeStep_gI]
      exact ih (removeStep s p)

lemma setIntensity_not_off (s : EngineState) (level : IntensityLevel)
    (h : level ≠ IntensityLevel.off) :
    ParticleEngine.setIntensity s level = { s with globalIntensity := level } := by
  unfold ParticleEngine.setIntensity
  rw [if_neg h]

lemma renderLoop_gI_core (s : EngineState) (l : IntensityLevel) (t fe : ℚ) :
    (renderLoop { s with globalIntensity := l } t fe).particles =
      (renderLoop s t fe).particles ∧
    (renderLoop { s with globalIntensity := l } t fe).activeEffects =
      (renderLoop s t fe).activeEffects ∧
    (renderLoop { s with globalIntensity := l } t fe).pool =
      (renderLoop s t fe).pool := by
  have lowneoff : IntensityLevel.low ≠ IntensityLevel.off := by decide
  unfold renderLoop
  dsimp only
  by_cases hg : s.isPaused = true ∨ s.isVisible = false ∨ s.hasContext = false
  · simp only [if_pos hg]
    exact ⟨trivial, trivial, trivial⟩
  · simp only [if_neg hg]
    have hsp : spawnPhase { s with globalIntensity := l, lastFrameTime := t } t =
        { spawnPhase { s with lastFrameTime := t } t with globalIntensity := l } :=
      spawnPhase_gI { s with lastFrameTime := t } l t
    rw [hsp]
    set A := spawnPhase { s with lastFrameTime := t } t with hA
    dsimp only
    have hup : updatePhase { A with globalIntensity := l }
        ((min (t - s.lastFrameTime) PERFORMANCE_BUDGET.MAX_DELTA_CLAMP) / 16.67) =
        updatePhase A
        ((min (t - s.lastFrameTime) PERFORMANCE_BUDGET.MAX_DELTA_CLAMP) / 16.67) := rfl
    rw [hup]
    set ur := updatePhase A
      ((min (t - s.lastFrameTime) PERFORMANCE_BUDGET.MAX_DELTA_CLAMP) / 16.67) with hur
    have hrp : removePhase { A with particles := ur.1, globalIntensity := l } ur.2 =
        { removePhase { A with particles := ur.1 } ur.2 with globalIntensity := l } :=
      removePhase_gI ur.2 { A with particles := ur.1 } l
    rw [hrp]
    set S3 := removePhase { A with particles := ur.1 } ur.2 with hS3
    dsimp only
    refine ⟨?_, ?_, ?_⟩ <;>
      · split <;> split <;>
          simp only [setIntensity_not_off _ _ lowneoff] <;> rfl

/-- C10 (implicit claim): calling setIntensity(level) for any level other than
"off" — including the automatic downgrade to "low" performed when the monitor
reports a critical frame time, which goes through the same setIntensity —
changes only the stored globalIntensity field (the particle table, the
session map, the pool, and everything else are returned untouched: no session
is stopped, no particle released); and a whole tick run from two states that
differ only in the stored global intensity produces the same particle table,
session map (hence each session's spawn pacing and owned counts, which the
tick derives solely from the session's own options.intensity defaulting to
medium) and pool. -/
theorem c10_setIntensity_inert :
    (∀ (s : EngineState) (level : IntensityLevel),
      level ≠ IntensityLevel.off →
      ParticleEngine.setIntensity s level = { s with globalIntensity := level }) ∧
    (∀ (s : EngineState) (l : IntensityLevel) (t fe : ℚ),
      (renderLoop { s with globalIntensity := l } t fe).particles =
        (renderLoop s t fe).particles ∧
      (renderLoop { s with globalIntensity := l } t fe).activeEffects =
        (renderLoop s t fe).activeEffects ∧
      (renderLoop { s with globalIntensity := l } t fe).pool =
        (renderLoop s t fe).pool) :=
  ⟨setIntensity_not_off, fun s l t fe => renderLoop_gI_core s l t fe⟩

/-- Witness for C10 at a concrete state: setIntensity to low only writes the
field, and a tick from the high-intensity variant of the C3 state produces
the same particle table as from the original. -/
theorem c10_setIntensity_inert_witness :
    ParticleEngine.setIntensity c3Started IntensityLevel.low =
      { c3Started with globalIntensity := IntensityLevel.low } ∧
    (renderLoop { c3Started with globalIntensity := IntensityLevel.high } 20 1).particles =
      (renderLoop c3Started 20 1).particles :=
  ⟨c10_setIntensity_inert.1 c3Started IntensityLevel.low (by decide),
    (c10_setIntensity_inert.2 c3Started IntensityLevel.high 20 1).1⟩

/-! ### C5: the pre-spawn population of start -/

lemma spawnPFE_success (s : EngineState) (eid : String) (ae : ActiveEffect)
    (hae : mapLookup s.activeEffects eid = some ae)
    (hb : s.particles.length < 100)
    (hcap : ae.particleIds.length < ae.renderer.getMaxParticles ae.options) :
    spawnParticleForEffect s eid =
      ({ s with
          pool := (s.pool.acquire).2
          particles := mapSet s.particles s.particleIdCounter
            { particle := ae.renderer.spawn (s.pool.acquire).1 ae.options,
              effectId := eid }
          activeEffects := mapAdjust s.activeEffects eid
            (fun a0 => { a0 with
              particleIds := setAdd a0.particleIds s.particleIdCounter })
          particleIdCounter := s.particleIdCounter + 1 }, true) := by
  have h1 : ¬ (PERFORMANCE_BUDGET.MAX_PARTICLES_GLOBAL ≤ s.particles.length) := by
    rw [MAX_PARTICLES_GLOBAL_eq]
    omega
  have h2 : ¬ (ae.renderer.getMaxParticles ae.options ≤ ae.particleIds.length) := by
    omega
  unfold spawnParticleForEffect
  simp only [if_neg h1, hae, if_neg h2]

lemma spawnLoop_count (k : Nat) (s : EngineState) (fid : String) (ae : ActiveEffect)
    (hae : mapLookup s.activeEffects fid = some ae)
    (hcounter : ∀ p ∈ keys s.particles, p < s.particleIdCounter)
    (hsub : ∀ p ∈ ae.particleIds, p ∈ keys s.particles)
    (howned : ae.particleIds.length = s.particles.length)
    (hcap : ae.particleIds.length + k ≤ ae.renderer.getMaxParticles ae.options)
    (hbound : s.particles.length ≤ 100) :
    ∃ pids2 : List Nat,
      mapLookup (spawnLoop fid k s).activeEffects fid =
        some { ae with particleIds := pids2 } ∧
      pids2.length = min (ae.particleIds.length + k) 100 ∧
      (spawnLoop fid k s).particles.length = min (s.particles.length + k) 100 ∧
      (spawnLoop fid k s).events = s.events := by
  induction k generalizing s ae with
  | zero =>
      refine ⟨ae.particleIds, ?_, ?_, ?_, rfl⟩
      · show mapLookup s.activeEffects fid = some { ae with particleIds := ae.particleIds }
        exact hae
      · have hle : ae.particleIds.length ≤ 100 := by
          rw [howned]
          exact hbound
        rw [Nat.add_zero, min_eq_left hle]
      · show s.particles.length = _
        rw [Nat.add_zero, min_eq_left hbound]
  | succ m ih =>
      by_cases hfull : 100 ≤ s.particles.length
      · have hrefused : spawnParticleForEffect s fid = (s, false) := by
          apply spawnPFE_refused
          rw [MAX_PARTICLES_GLOBAL_eq]
          exact hfull
        have hstep : spawnLoop fid (m + 1) s = spawnLoop fid m s := by
          show spawnLoop fid m (spawnParticleForEffect s fid).1 = _
          rw [hrefused]
        rw [hstep]
        obtain ⟨pids2, j1, j2, j3, j4⟩ := ih s ae hae hcounter hsub howned
          (by omega) hbound
        have hlen : s.particles.length = 100 := by omega
        refine ⟨pids2, j1, ?_, ?_, j4⟩
        · rw [j2, howned, hlen]
          omega
        · rw [j3, hlen]
          omega
      · have hb : s.particles.length < 100 := by omega
        have hsucc := spawnPFE_success s fid ae hae hb (by omega)
        have hfreshpid : s.particleIdCounter ∉ keys s.particles := by
          intro hmem
          have := hcounter _ hmem
          omega
        have hfreshown : s.particleIdCounter ∉ ae.particleIds := by
          intro hmem
          have := hcounter _ (hsub _ hmem)
          omega
        have happend := mapSet_eq_append s.particles s.particleIdCounter
          ({ particle := ae.renderer.spawn (s.pool.acquire).1 ae.options,
             effectId := fid } : PEntry)
          ((mapLookup_eq_none_iff _ _).mpr hfreshpid)
        have hsetadd : setAdd ae.particleIds s.particleIdCounter =
            ae.particleIds ++ [s.particleIdCounter] :=
          setAdd_of_not_mem ae.particleIds s.particleIdCounter hfreshown
        have hstep : spawnLoop fid (m + 1) s =
            spawnLoop fid m (spawnParticleForEffect s fid).1 := rfl
        rw [hstep, hsucc]
        dsimp only
        set s2 : EngineState := { s with
          pool := (s.pool.acquire).2
          particles := mapSet s.particles s.particleIdCounter
            { particle := ae.renderer.spawn (s.pool.acquire).1 ae.options,
              effectId := fid }
          activeEffects := mapAdjust s.activeEffects fid
            (fun a0 => { a0 with
              particleIds := setAdd a0.particleIds s.particleIdCounter })
          particleIdCounter := s.particleIdCounter + 1 } with hs2
        set ae2 : ActiveEffect :=
          { ae with particleIds := setAdd ae.particleIds s.particleIdCounter }
          with hae2def
        have hae2 : mapLookup s2.activeEffects fid = some ae2 := by
          show mapLookup (mapAdjust s.activeEffects fid
            (fun a0 => { a0 with
              particleIds := setAdd a0.particleIds s.particleIdCounter })) fid =
            some ae2
          rw [mapLookup_mapAdjust, hae]
          rfl
        have hplen : s2.particles.length = s.particles.length + 1 := by
          show (mapSet s.particles _ _).length = _
          rw [happend, List.length_append, List.length_singleton]
        have hkeq : keys s2.particles = keys s.particles ++ [s.particleIdCounter] := by
          show keys (mapSet s.particles _ _) = _
          rw [happend]
          simp [keys]
        have hkeys2 : ∀ p ∈ keys s2.particles, p < s2.particleIdCounter := by
          intro p hp
          show p < s.particleIdCounter + 1
          rw [hkeq] at hp
          rcases List.mem_append.mp hp with hold | hnew
          · have := hcounter _ hold
            omega
          · simp only [List.mem_singleton] at hnew
            omega
        have hsub2 : ∀ p ∈ ae2.particleIds, p ∈ keys s2.particles := by
          intro p hp
          rw [hkeq]
          have hp2 : p ∈ setAdd ae.particleIds s.particleIdCounter := hp
          rcases (mem_setAdd_iff _ _ _).mp hp2 with hold | hnew
          · exact List.mem_append_left _ (hsub _ hold)
          · subst hnew
            exact List.mem_append_right _ (List.mem_singleton.mpr rfl)
        have hal : ae2.particleIds.length = ae.particleIds.length + 1 := by
          show (setAdd ae.particleIds s.particleIdCounter).length = _
          rw [hsetadd, List.length_append, List.length_singleton]
        have hown2 : ae2.particleIds.length = s2.particles.length := by
          rw [hal, hplen, howned]
        have hcap2 : ae2.particleIds.length + m ≤
            ae2.renderer.getMaxParticles ae2.options := by
          show ae2.particleIds.length + m ≤ ae.renderer.getMaxParticles ae.options
          rw [hal]
          omega
        have hbound2 : s2.particles.length ≤ 100 := by
          rw [hplen]
          omega
        obtain ⟨pids2, j1, j2, j3, j4⟩ := ih s2 ae2 hae2 hkeys2 hsub2 hown2 hcap2 hbound2
        have hsame : ({ ae2 with particleIds := pids2 } : ActiveEffect) =
            { ae with particleIds := pids2 } := rfl
        refine ⟨pids2, ?_, ?_, ?_, j4⟩
        · rw [j1, hsame]
        · rw [j2, hal]
          omega
        · rw [j3, hplen]
          omega

/-- C5 (amended): if the reduced-motion preference is inactive (or explicitly
overridden), the effect type is registered with capacity
c = getMaxParticles(options), the session id is fresh, and the global particle
table is empty, then immediately after start(type, options) returns the newly
created session owns exactly min(floor(c * 0.5), 100) particles — the 50%
pre-spawn, additionally truncated by the global 100-particle ceiling (40 for
capacity 80 at intensity medium, but 100 rather than 101 for capacity 202) —
and a start event has been emitted. -/
theorem c5_start_prespawn (s : EngineState) (ty : String) (opts : EffectOptions)
    (fid : String) (now : ℚ) (r : EffectRenderer)
    (hrm : ¬ (s.prefersReducedMotion = true ∧ opts.disableOnReducedMotion ≠ some false))
    (hreg : mapLookup s.effects ty = some r)
    (hempty : s.particles = [])
    (hfresh : mapLookup s.activeEffects fid = none) :
    countOwned (ParticleEngine.start s ty opts fid now).1 fid =
      min (r.getMaxParticles opts / 2) 100 ∧
    (ParticleEngine.start s ty opts fid now).1.events =
      s.events ++ [EngineEvent.start ty] := by
  unfold ParticleEngine.start
  simp only [if_neg hrm, hreg]
  set ae0 : ActiveEffect :=
    { instanceId := fid, etype := ty, renderer := r, options := opts,
      particleIds := [], lastSpawnTime := now } with hae0
  set s1 : EngineState := { s with activeEffects := mapSet s.activeEffects fid ae0 }
    with hs1
  have hae1 : mapLookup s1.activeEffects fid = some ae0 := by
    show mapLookup (mapSet s.activeEffects fid ae0) fid = some ae0
    exact mapLookup_mapSet_self _ _ _
  have hcounter1 : ∀ p ∈ keys s1.particles, p < s1.particleIdCounter := by
    intro p hp
    have hp2 : p ∈ keys s.particles := hp
    rw [hempty] at hp2
    simp [keys] at hp2
  have hsub1 : ∀ p ∈ ae0.particleIds, p ∈ keys s1.particles := by
    intro p hp
    have hp2 : p ∈ ([] : List Nat) := hp
    simp at hp2
  have hown1 : ae0.particleIds.length = s1.particles.length := by
    show ([] : List Nat).length = s.particles.length
    rw [hempty]
    rfl
  have hcap1 : ae0.particleIds.length + r.getMaxParticles opts / 2 ≤
      ae0.renderer.getMaxParticles ae0.options := by
    show ([] : List Nat).length + r.getMaxParticles opts / 2 ≤
      r.getMaxParticles opts
    simp only [List.length_nil, Nat.zero_add]
    exact Nat.div_le_self _ _
  have hbound1 : s1.particles.length ≤ 100 := by
    show s.particles.length ≤ 100
    rw [hempty]
    simp
  obtain ⟨pids2, j1, j2, j3, j4⟩ := spawnLoop_count (r.getMaxParticles opts / 2)
    s1 fid ae0 hae1 hcounter1 hsub1 hown1 hcap1 hbound1
  constructor
  · show countOwned (emit _ _) fid = _
    unfold countOwned
    show (match mapLookup (spawnLoop fid (r.getMaxParticles opts / 2) s1).activeEffects
      fid with
      | none => 0
      | some ae => ae.particleIds.length) = _
    rw [j1]
    show pids2.length = _
    rw [j2]
    show min (([] : List Nat).length + r.getMaxParticles opts / 2) 100 = _
    simp
  · show (emit _ _).events = _
    show (spawnLoop fid (r.getMaxParticles opts / 2) s1).events ++
      [EngineEvent.start ty] = _
    rw [j4]

set_option maxRecDepth 100000

/-- C5 (counterexample): the claim says that with an empty table the new
session owns exactly floor(c * 0.5) particles for capacity c.  Starting a
registered capacity-202 effect on the empty table attempts
floor(202 * 0.5) = 101 pre-spawns, but the global 100-particle ceiling
refuses the 101st: the session owns 100 particles, not 101. -/
theorem c5_prespawn_counterexample :
    countOwned c5Started "S" = 100 ∧
    (constRenderer 202).getMaxParticles {} / 2 = 101 := by
  constructor
  · decide
  · rfl

/-- Witness for C5 (amended) at the claim's own example: capacity 80 at
intensity medium pre-spawns exactly 40, and the start event is emitted. -/
theorem c5_start_prespawn_witness :
    countOwned (ParticleEngine.start c5WReg "G"
      { intensity := some IntensityLevel.medium } "T" 0).1 "T" = 40 ∧
    (ParticleEngine.start c5WReg "G"
      { intensity := some IntensityLevel.medium } "T" 0).1.events =
      c5WReg.events ++ [EngineEvent.start "G"] := by
  have h := c5_start_prespawn c5WReg "G"
    { intensity := some IntensityLevel.medium } "T" 0 (constRenderer 80)
    (by decide) rfl rfl rfl
  exact ⟨h.1.trans (by decide), h.2⟩

/-! ### Claim C4: spawn pacing -/

lemma spawnPFE_stuck (s : EngineState) (eid : String) (ae : ActiveEffect)
    (hae : mapLookup s.activeEffects eid = some ae)
    (h : ¬ (s.particles.length < 100 ∧
      ae.particleIds.length < ae.renderer.getMaxParticles ae.options)) :
    spawnParticleForEffect s eid = (s, false) := by
  by_cases h1 : PERFORMANCE_BUDGET.MAX_PARTICLES_GLOBAL ≤ s.particles.length
  · exact spawnPFE_refused s eid h1
  · have hlt : s.particles.length < 100 := by
      rw [MAX_PARTICLES_GLOBAL_eq] at h1
      omega
    have h2 : ae.renderer.getMaxParticles ae.options ≤ ae.particleIds.length := by
      by_contra h2
      exact h ⟨hlt, by omega⟩
    unfold spawnParticleForEffect
    rw [if_neg h1]
    simp only [hae]
    rw [if_pos h2]

lemma spawnPFE_lookup_ne (s : EngineState) (eid fid : String) (h : fid ≠ eid) :
    mapLookup (spawnParticleForEffect s eid).1.activeEffects fid =
      mapLookup s.activeEffects fid := by
  unfold spawnParticleForEffect
  split
  · rfl
  · split
    · rfl
    · split
      · rfl
      · dsimp only
        exact mapLookup_mapAdjust_ne _ _ _ _ h

lemma spawnPhaseStep_noattempt (now : ℚ) (s : EngineState) (fid : String)
    (ae : ActiveEffect) (hae : mapLookup s.activeEffects fid = some ae)
    (hcond : ¬ (0 < (INTENSITY_MAP
        (ae.options.intensity.getD IntensityLevel.medium)).spawnRate ∧
      1000 / (INTENSITY_MAP
        (ae.options.intensity.getD IntensityLevel.medium)).spawnRate ≤
        now - ae.lastSpawnTime)) :
    spawnPhaseStep now s fid = s := by
  unfold spawnPhaseStep
  simp only [hae]
  rw [if_neg hcond]

lemma spawnPhaseStep_attempt (now : ℚ) (s : EngineState) (fid : String)
    (ae : ActiveEffect) (hae : mapLookup s.activeEffects fid = some ae)
    (hcond : 0 < (INTENSITY_MAP
        (ae.options.intensity.getD IntensityLevel.medium)).spawnRate ∧
      1000 / (INTENSITY_MAP
        (ae.options.intensity.getD IntensityLevel.medium)).spawnRate ≤
        now - ae.lastSpawnTime) :
    spawnPhaseStep now s fid =
      { (spawnParticleForEffect s fid).1 with
        activeEffects := mapAdjust (spawnParticleForEffect s fid).1.activeEffects
          fid (fun a0 => { a0 with lastSpawnTime := now }) } := by
  unfold spawnPhaseStep
  simp only [hae]
  rw [if_pos hcond]

lemma spawnPhaseStep_lookup_ne (now : ℚ) (s : EngineState) (g fid : String)
    (h : fid ≠ g) :
    mapLookup (spawnPhaseStep now s g).activeEffects fid =
      mapLookup s.activeEffects fid := by
  unfold spawnPhaseStep
  cases hlk : mapLookup s.activeEffects g with
  | none => rfl
  | some ae =>
      dsimp only
      split
      · dsimp only
        rw [mapLookup_mapAdjust_ne _ _ _ _ h]
        exact spawnPFE_lookup_ne s g fid h
      · rfl

lemma countOwned_spawnPhaseStep_ne (now : ℚ) (s : EngineState) (g fid : String)
    (h : fid ≠ g) :
    countOwned (spawnPhaseStep now s g) fid = countOwned s fid := by
  unfold countOwned
  rw [spawnPhaseStep_lookup_ne now s g fid h]

lemma countOwned_spawnPhaseStep_le (now : ℚ) (s : EngineState) (fid : String) :
    countOwned (spawnPhaseStep now s fid) fid ≤ countOwned s fid + 1 := by
  cases hlk : mapLookup s.activeEffects fid with
  | none =>
      have hstep : spawnPhaseStep now s fid = s := by
        unfold spawnPhaseStep
        simp only [hlk]
      rw [hstep]
      omega
  | some ae =>
      have hco : countOwned s fid = ae.particleIds.length := by
        unfold countOwned
        rw [hlk]
      by_cases hcond : 0 < (INTENSITY_MAP
          (ae.options.intensity.getD IntensityLevel.medium)).spawnRate ∧
        1000 / (INTENSITY_MAP
          (ae.options.intensity.getD IntensityLevel.medium)).spawnRate ≤
          now - ae.lastSpawnTime
      · rw [spawnPhaseStep_attempt now s fid ae hlk hcond, hco]
        by_cases hb : s.particles.length < 100 ∧
            ae.particleIds.length < ae.renderer.getMaxParticles ae.options
        · rw [spawnPFE_success s fid ae hlk hb.1 hb.2]
          dsimp only
          refine le_trans (le_of_eq ?_)
            (length_setAdd_le ae.particleIds s.particleIdCounter)
          unfold countOwned
          dsimp only
          rw [mapLookup_mapAdjust, mapLookup_mapAdjust, hlk]
          rfl
        · rw [spawnPFE_stuck s fid ae hlk hb]
          dsimp only
          have hceq : countOwned { s with
              activeEffects := mapAdjust s.activeEffects fid
                (fun a0 => { a0 with lastSpawnTime := now }) } fid =
              ae.particleIds.length := by
            unfold countOwned
            dsimp only
            rw [mapLookup_mapAdjust, hlk]
            rfl
          rw [hceq]
          omega
      · rw [spawnPhaseStep_noattempt now s fid ae hlk hcond, hco]
        omega

lemma countOwned_foldl_notmem (now : ℚ) (L : List String) :
    ∀ (s : EngineState) (fid : String), fid ∉ L →
      countOwned (L.foldl (spawnPhaseStep now) s) fid = countOwned s fid := by
  induction L with
  | nil =>
      intro s fid _
      rfl
  | cons g rest ih =>
      intro s fid h
      rw [List.foldl_cons]
      have hne : fid ≠ g := by
        intro he
        exact h (by rw [he]; exact List.mem_cons_self g rest)
      rw [ih _ fid (fun hm => h (List.mem_cons_of_mem g hm)),
        countOwned_spawnPhaseStep_ne now s g fid hne]

lemma countOwned_foldl_nodup (now : ℚ) (L : List String) :
    ∀ (s : EngineState) (fid : String), L.Nodup →
      countOwned (L.foldl (spawnPhaseStep now) s) fid ≤ countOwned s fid + 1 := by
  induction L with
  | nil =>
      intro s fid _
      exact Nat.le_succ _
  | cons g rest ih =>
      intro s fid hnd
      obtain ⟨hg, hrest⟩ := List.nodup_cons.mp hnd
      rw [List.foldl_cons]
      by_cases he : fid = g
      · subst he
        rw [countOwned_foldl_notmem now rest _ fid hg]
        exact countOwned_spawnPhaseStep_le now s fid
      · calc countOwned (rest.foldl (spawnPhaseStep now)
              (spawnPhaseStep now s g)) fid
            ≤ countOwned (spawnPhaseStep now s g) fid + 1 := ih _ fid hrest
          _ = countOwned s fid + 1 := by
              rw [countOwned_spawnPhaseStep_ne now s g fid he]

/-- C4 (amended): per-tick spawn pacing.  For a session of the sessions map:
(a) when the session is not due (its intensity's spawn rate is zero, or the
elapsed wall-time since its last spawn is below 1000/rate ms), the spawn
phase's step for it leaves the state unchanged; (b) when it is due, the step
makes exactly one spawn attempt and stamps the session's lastSpawnTime to the
tick's timestamp whether or not the attempt succeeds: the attempt succeeds —
exactly one particle added to the global table and to the session's owned
set — precisely when the table is below the 100-particle ceiling and the
session is below its effect's capacity, and otherwise both are left
unchanged; and (c) across the whole spawn phase of one tick a session's
owned-particle count grows by at most one.  The claim's windowed bound of
floor(T times R) plus or minus 1 spawns independent of concurrent sessions
does not hold: a refused attempt still restarts the interval timer, and a
concurrent session holding the global ceiling starves the session to zero
spawns (c4_window_counterexample). -/
theorem c4_tick_pacing (s : EngineState) (now : ℚ) (fid : String)
    (ae : ActiveEffect)
    (hae : mapLookup s.activeEffects fid = some ae)
    (hnodup : (keys s.activeEffects).Nodup)
    (hctr : ∀ p ∈ keys s.particles, p < s.particleIdCounter)
    (hown : ∀ p ∈ ae.particleIds, p ∈ keys s.particles) :
    (¬ spawnDue ae now → spawnPhaseStep now s fid = s) ∧
    (spawnDue ae now →
      ∃ ae2, mapLookup (spawnPhaseStep now s fid).activeEffects fid = some ae2 ∧
        ae2.lastSpawnTime = now ∧
        (s.particles.length < 100 ∧
            ae.particleIds.length < ae.renderer.getMaxParticles ae.options →
          ae2.particleIds.length = ae.particleIds.length + 1 ∧
            (spawnPhaseStep now s fid).particles.length =
              s.particles.length + 1) ∧
        (¬ (s.particles.length < 100 ∧
            ae.particleIds.length < ae.renderer.getMaxParticles ae.options) →
          ae2.particleIds = ae.particleIds ∧
            (spawnPhaseStep now s fid).particles = s.particles)) ∧
    countOwned (spawnPhase s now) fid ≤ countOwned s fid + 1 := by
  refine ⟨?_, ?_, ?_⟩
  · intro hcond
    exact spawnPhaseStep_noattempt now s fid ae hae hcond
  · intro hcond
    rw [spawnPhaseStep_attempt now s fid ae hae hcond]
    by_cases hb : s.particles.length < 100 ∧
        ae.particleIds.length < ae.renderer.getMaxParticles ae.options
    · rw [spawnPFE_success s fid ae hae hb.1 hb.2]
      dsimp only
      have hfpid : s.particleIdCounter ∉ keys s.particles := by
        intro hm
        exact absurd (hctr _ hm) (lt_irrefl _)
      have hfown : s.particleIdCounter ∉ ae.particleIds := by
        intro hm
        exact hfpid (hown _ hm)
      refine ⟨{ ae with
          particleIds := setAdd ae.particleIds s.particleIdCounter,
          lastSpawnTime := now }, ?_, rfl, ?_, ?_⟩
      · rw [mapLookup_mapAdjust, mapLookup_mapAdjust, hae]
        rfl
      · intro _
        constructor
        · show (setAdd ae.particleIds s.particleIdCounter).length = _
          rw [setAdd_of_not_mem _ _ hfown, List.length_append]
          rfl
        · show (mapSet s.particles s.particleIdCounter _).length = _
          rw [mapSet_eq_append _ _ _ ((mapLookup_eq_none_iff _ _).mpr hfpid),
            List.length_append]
          rfl
      · intro hn
        exact absurd hb hn
    · rw [spawnPFE_stuck s fid ae hae hb]
      dsimp only
      refine ⟨{ ae with lastSpawnTime := now }, ?_, rfl, ?_, ?_⟩
      · rw [mapLookup_mapAdjust, hae]
        rfl
      · intro hcontra
        exact absurd hcontra hb
      · intro _
        exact ⟨rfl, rfl⟩
  · unfold spawnPhase
    exact countOwned_foldl_nodup now (keys s.activeEffects) s fid hnodup

lemma spawnPhaseStep_full (now : ℚ) (s : EngineState) (g : String)
    (h : 100 ≤ s.particles.length) :
    spawnPhaseStep now s g = s ∨
    spawnPhaseStep now s g =
      { s with
        activeEffects := mapAdjust s.activeEffects g
          (fun a0 => { a0 with lastSpawnTime := now }) } := by
  cases hlk : mapLookup s.activeEffects g with
  | none =>
      left
      unfold spawnPhaseStep
      simp only [hlk]
  | some ae =>
      by_cases hcond : 0 < (INTENSITY_MAP
          (ae.options.intensity.getD IntensityLevel.medium)).spawnRate ∧
        1000 / (INTENSITY_MAP
          (ae.options.intensity.getD IntensityLevel.medium)).spawnRate ≤
          now - ae.lastSpawnTime
      · right
        rw [spawnPhaseStep_attempt now s g ae hlk hcond,
          spawnPFE_refused s g (by rw [MAX_PARTICLES_GLOBAL_eq]; exact h)]
      · left
        exact spawnPhaseStep_noattempt now s g ae hlk hcond

lemma spawnPhaseStep_full_facts (now : ℚ) (s : EngineState) (g : String)
    (h : 100 ≤ s.particles.length) (hk : KeepsAll s) :
    (spawnPhaseStep now s g).particles = s.particles ∧
    KeepsAll (spawnPhaseStep now s g) ∧
    ∀ fid, countOwned (spawnPhaseStep now s g) fid = countOwned s fid := by
  rcases spawnPhaseStep_full now s g h with heq | heq
  · rw [heq]
    exact ⟨rfl, hk, fun _ => rfl⟩
  · rw [heq]
    refine ⟨rfl, ?_, ?_⟩
    · intro pe hpe
      obtain ⟨ae, hlk, hup⟩ := hk pe hpe
      by_cases hg : pe.2.effectId = g
      · have hlk2 : mapLookup s.activeEffects g = some ae := by
          rw [← hg]
          exact hlk
        refine ⟨{ ae with lastSpawnTime := now }, ?_, hup⟩
        show mapLookup (mapAdjust s.activeEffects g
          (fun a0 => { a0 with lastSpawnTime := now })) pe.2.effectId = _
        rw [hg, mapLookup_mapAdjust, hlk2]
        rfl
      · refine ⟨ae, ?_, hup⟩
        show mapLookup (mapAdjust s.activeEffects g
          (fun a0 => { a0 with lastSpawnTime := now })) pe.2.effectId = _
        rw [mapLookup_mapAdjust_ne _ _ _ _ hg]
        exact hlk
    · intro fid
      unfold countOwned
      dsimp only
      by_cases hfg : fid = g
      · rw [hfg, mapLookup_mapAdjust]
        cases mapLookup s.activeEffects g <;> rfl
      · rw [mapLookup_mapAdjust_ne _ _ _ _ hfg]

lemma spawnFold_full_facts (now : ℚ) (L : List String) :
    ∀ s : EngineState, 100 ≤ s.particles.length → KeepsAll s →
      (L.foldl (spawnPhaseStep now) s).particles = s.particles ∧
      KeepsAll (L.foldl (spawnPhaseStep now) s) ∧
      ∀ fid, countOwned (L.foldl (spawnPhaseStep now) s) fid =
        countOwned s fid := by
  induction L with
  | nil =>
      intro s _ hk
      exact ⟨rfl, hk, fun _ => rfl⟩
  | cons g rest ih =>
      intro s h hk
      obtain ⟨hp, hk2, hc⟩ := spawnPhaseStep_full_facts now s g h hk
      rw [List.foldl_cons]
      obtain ⟨hp2, hk3, hc2⟩ := ih (spawnPhaseStep now s g)
        (by rw [hp]; exact h) hk2
      exact ⟨hp2.trans hp, hk3, fun fid => (hc2 fid).trans (hc fid)⟩

lemma updateFold_snd_keep (s : EngineState) (dn : ℚ)
    (l : List (Nat × PEntry)) :
    ∀ acc : List (Nat × PEntry) × List Nat,
      (∀ kv ∈ l, ∃ ae, mapLookup s.activeEffects kv.2.effectId = some ae ∧
        ∀ p dnn cv, (ae.renderer.update p dnn cv).2 = true) →
      (l.foldl (updateBody s dn) acc).2 = acc.2 := by
  induction l with
  | nil =>
      intro acc _
      rfl
  | cons kv rest ih =>
      intro acc h
      rw [List.foldl_cons]
      have hstep : (updateBody s dn acc kv).2 = acc.2 := by
        obtain ⟨ae, hlk, hup⟩ := h kv (List.mem_cons_self kv rest)
        unfold updateBody
        simp only [hlk]
        rw [hup]
        rfl
      rw [ih (updateBody s dn acc kv)
        (fun kv2 hm => h kv2 (List.mem_cons_of_mem kv hm)), hstep]

lemma updatePhase_snd_keep (s : EngineState) (dn : ℚ) (hk : KeepsAll s) :
    (updatePhase s dn).2 = [] := by
  unfold updatePhase
  exact updateFold_snd_keep s dn s.particles ([], []) hk

lemma keepsAll_updateAssign (s : EngineState) (dn : ℚ) (hk : KeepsAll s) :
    KeepsAll { s with particles := (updatePhase s dn).1 } := by
  intro pe hpe
  have hpe2 : pe ∈ (updatePhase s dn).1 := hpe
  rw [updatePhase_fst_map] at hpe2
  obtain ⟨kv, hkv, hmap⟩ := List.mem_map.mp hpe2
  have heff : pe.2.effectId = kv.2.effectId := by
    rw [← hmap]
    cases mapLookup s.activeEffects kv.2.effectId <;> rfl
  obtain ⟨ae, hlk, hup⟩ := hk kv hkv
  refine ⟨ae, ?_, hup⟩
  show mapLookup s.activeEffects pe.2.effectId = some ae
  rw [heff]
  exact hlk

lemma tick_full_facts (s : EngineState) (t fe : ℚ)
    (h : 100 ≤ s.particles.length) (hk : KeepsAll s) :
    (renderLoop s t fe).particles.length = s.particles.length ∧
    KeepsAll (renderLoop s t fe) ∧
    ∀ fid, countOwned (renderLoop s t fe) fid = countOwned s fid := by
  have lowneoff : IntensityLevel.low ≠ IntensityLevel.off := by decide
  unfold renderLoop
  dsimp only
  by_cases hg : s.isPaused = true ∨ s.isVisible = false ∨ s.hasContext = false
  · rw [if_pos hg]
    exact ⟨rfl, hk, fun _ => rfl⟩
  · rw [if_neg hg]
    set A := spawnPhase { s with lastFrameTime := t } t with hA
    have hk1 : KeepsAll ({ s with lastFrameTime := t } : EngineState) := hk
    have hAfacts := spawnFold_full_facts t (keys s.activeEffects)
      { s with lastFrameTime := t } h hk1
    have hAp : A.particles = s.particles := hAfacts.1
    have hAk : KeepsAll A := hAfacts.2.1
    have hAc : ∀ fid, countOwned A fid = countOwned s fid := hAfacts.2.2
    set ur := updatePhase A
      ((min (t - s.lastFrameTime) PERFORMANCE_BUDGET.MAX_DELTA_CLAMP) / 16.67)
      with hur
    have hsnd : ur.2 = [] := by
      rw [hur]
      exact updatePhase_snd_keep A _ hAk
    rw [hsnd]
    have hrp : removePhase { A with particles := ur.1 } [] =
        { A with particles := ur.1 } := rfl
    rw [hrp]
    dsimp only
    have hlen : ur.1.length = s.particles.length := by
      rw [hur, updatePhase_fst_length, hAp]
    have hk2 : KeepsAll { A with particles := ur.1 } := by
      rw [hur]
      exact keepsAll_updateAssign A _ hAk
    have hc2 : ∀ fid, countOwned { A with particles := ur.1 } fid =
        countOwned s fid := by
      intro fid
      have h1 : countOwned { A with particles := ur.1 } fid =
          countOwned A fid := rfl
      rw [h1]
      exact hAc fid
    refine ⟨?_, ?_, ?_⟩
    · split
      · rw [setIntensity_not_off _ _ lowneoff]
        exact hlen
      · exact hlen
    · split
      · rw [setIntensity_not_off _ _ lowneoff]
        exact hk2
      · exact hk2
    · intro fid
      split
      · rw [setIntensity_not_off _ _ lowneoff]
        exact hc2 fid
      · exact hc2 fid

/-- C4 (counterexample): the claim's windowed bound fails under concurrency.
Session B (default medium intensity, spawn rate 4/s) is due at both ticks of
the half-second window, so the claimed floor(0.5 * 4) = 2 plus or minus 1
promises it at least one spawn; but session A holds the global table at the
100-particle ceiling, every one of B's attempts is refused, and B still owns
zero particles after the window. -/
theorem c4_window_counterexample :
    countOwned c4S2 "B" = 0 ∧ countOwned c4Final "B" = 0 ∧
    (INTENSITY_MAP IntensityLevel.medium).spawnRate = 4 := by
  have h0 : countOwned c4S2 "B" = 0 := by decide
  have hlen : (100 : Nat) ≤ c4S2.particles.length := by decide
  have hk : KeepsAll c4S2 := by
    intro pe hpe
    have hall : ∀ kv ∈ c4S2.particles, kv.2.effectId = "A" := by decide
    have heff : pe.2.effectId = "A" := hall pe hpe
    rw [heff]
    refine ⟨_, rfl, ?_⟩
    intro p dn cv
    rfl
  have t1 := tick_full_facts c4S2 250 1 hlen hk
  have t2 := tick_full_facts (renderLoop c4S2 250 1) 500 1
    (by rw [t1.1]; exact hlen) t1.2.1
  refine ⟨h0, ?_, by decide⟩
  show countOwned (renderLoop (renderLoop c4S2 250 1) 500 1) "B" = 0
  rw [t2.2.2 "B", t1.2.2 "B", h0]

/-- Witness for C4 (amended), part (c), at a concrete started session: one
spawn phase grows session W's owned count by at most one. -/
theorem c4_tick_pacing_witness :
    countOwned (spawnPhase c4WStarted 250) "W" ≤ countOwned c4WStarted "W" + 1 :=
  (c4_tick_pacing c4WStarted 250 "W" c4WAE rfl (by decide) (by decide)
    (by decide)).2.2

end FestiveUI
